import Mathlib

/-!
Verification of the admission / scheduling / lifecycle-reconciliation core of
the package-analysis backend (`backend/package_analysis`).

The task store is shallowly embedded as a list of task rows in insertion
(primary-key) order; each Django ORM transaction of the source becomes one
atomic Lean function from store to store.  Timestamps are natural numbers
(minutes); `timeout_minutes` therefore compares directly against timestamp
differences.  Celery retry control flow (`self.retry`, `Retry`,
max-retries exhaustion) is rendered as an explicit outcome value, and the
external collaborators (cache, sandbox backend, report generation) are
inputs to the functions that consume them.  Observability-only data
(log lines, `error_details` payload contents, container log tails) is not
modelled.
-/

/-- ATask status enum of `AnalysisTask.status`
(`pending, queued, running, submitted, completed, failed`). -/
inductive TStatus where
  | pending
  | queued
  | running
  | submitted
  | completed
  | failed
deriving DecidableEq, Repr

/-- One `AnalysisTask` row.  Fields follow the model fields used by the
scheduling core; durations are kept abstract as optional naturals. -/
structure ATask where
  id : Nat
  purl : Option String := none
  status : TStatus := TStatus.pending
  priority : Int := 0
  queuePosition : Option Nat := none
  createdAt : Nat := 0
  queuedAt : Option Nat := none
  startedAt : Option Nat := none
  completedAt : Option Nat := none
  lastHeartbeat : Option Nat := none
  timeoutMinutes : Nat := 30
  jobId : Option String := none
  containerId : Option String := none
  report : Option Nat := none
  downloadUrl : Option String := none
  errorMessage : Option String := none
  errorCategory : Option String := none
  durationSeconds : Option Nat := none
  result : Option Nat := none
deriving DecidableEq, Repr

/-- The task store: `AnalysisTask` rows in primary-key (insertion) order. -/
abbrev Store := List ATask

/-- A Python exception value as far as `_mark_task_failed` inspects it:
its message and the `error_category` entry of its optional
`error_details` attribute. -/
structure PyError where
  message : String
  category : Option String := none
deriving DecidableEq, Repr

/-- Constant `RETRY_DELAY_SECONDS` of `tasks.py`. -/
def RETRY_DELAY_SECONDS : Nat := 30

/-- Constant `RETRY_BACKOFF_BASE_SECONDS` of `tasks.py`. -/
def RETRY_BACKOFF_BASE_SECONDS : Nat := 60

/-- Constant `ACTIVE_TASK_WINDOW_HOURS` of `view_constants.py`, in minutes. -/
def ACTIVE_TASK_WINDOW_MINUTES : Nat := 24 * 60

/-- Constant `RACE_CONDITION_CHECK_MINUTES` of `view_constants.py`. -/
def RACE_CONDITION_CHECK_MINUTES : Nat := 1

/-- `AnalysisTask.objects.get(id=i)` / `filter(id=i).first()`:
the row with the given primary key. -/
def findTask (s : Store) (i : Nat) : Option ATask :=
  s.find? (fun t => t.id == i)

/-- An ORM `save()` of a mutation `f` of the row with primary key `i`. -/
def setTask (s : Store) (i : Nat) (f : ATask → ATask) : Store :=
  s.map (fun t => if t.id == i then f t else t)

/-- `AnalysisTask.objects.filter(status='running')`. -/
def runningTasks (s : Store) : List ATask :=
  s.filter (fun t => t.status == TStatus.running)

/-- Number of rows with `status = running`. -/
def runningCount (s : Store) : Nat :=
  s.countP (fun t => t.status == TStatus.running)

/-- The scan `AnalysisTask.objects.filter(status='running').exclude(id=i)`
performed by `_check_and_prepare_task`, reduced to its emptiness test. -/
def otherRunningExists (s : Store) (i : Nat) : Bool :=
  s.any (fun t => t.status == TStatus.running && t.id != i)

/-- Stable insertion step for `sortOrd`: `x` moves past `y` only when `y`
must strictly precede it, so equal keys keep their original order, matching
a stable realisation of an SQL `ORDER BY` that constrains only the key. -/
def insertOrd (le : α → α → Bool) (x : α) : List α → List α
  | [] => [x]
  | y :: ys => if le y x && !(le x y) then y :: insertOrd le x ys else x :: y :: ys

/-- Stable sort by the boolean relation `le` (`le a b` = `a` may come
before `b`).  Embeds the ORM `order_by(...)` clauses: rows compare by the
named keys and ties keep store (insertion) order. -/
def sortOrd (le : α → α → Bool) : List α → List α
  | [] => []
  | x :: xs => insertOrd le x (sortOrd le xs)

/-- Key order of `order_by('-completed_at')`. -/
def completedAtDesc (a b : ATask) : Bool :=
  b.completedAt.getD 0 ≤ a.completedAt.getD 0

/-- Key order of `order_by('-created_at')`. -/
def createdAtDesc (a b : ATask) : Bool :=
  b.createdAt ≤ a.createdAt

/-- Key order of `order_by('-priority', 'queued_at')` used for dispatch
selection and queue-position assignment. -/
def dispatchLE (a b : ATask) : Bool :=
  b.priority < a.priority || (a.priority == b.priority && a.queuedAt.getD 0 ≤ b.queuedAt.getD 0)

/-- Row predicate of the completed-result queries
(`purl=..., status='completed', report__isnull=False`). -/
def completedMatch (purl : String) (t : ATask) : Bool :=
  t.purl == some purl && t.status == TStatus.completed && t.report.isSome

/-- `_reuse_existing_result` of `tasks.py`: the most recently completed
task with the same purl and a report, optionally excluding one id. -/
def reuse_existing_result (s : Store) (t : ATask) (excludeId : Option Nat) : Option ATask :=
  match t.purl with
  | none => none
  | some p =>
    (sortOrd completedAtDesc
      (s.filter (fun u => completedMatch p u &&
        match excludeId with
        | some e => u.id != e
        | none => true))).head?

/-- `TaskService.find_completed_task_by_purl` (same query is inlined in
`analyze_api`): most recent completed task with a report for a purl. -/
def find_completed_task_by_purl (s : Store) (purl : String) : Option ATask :=
  (sortOrd completedAtDesc (s.filter (fun t => completedMatch purl t))).head?

/-- Active-task query of `analyze_api` / `TaskService.find_active_tasks_by_purl`:
status in `{running, queued, pending}` and created within the 24 h window,
most recent first.  Note the source's status list has no `submitted`. -/
def find_active_tasks_by_purl (s : Store) (purl : String) (now : Nat) : List ATask :=
  sortOrd createdAtDesc
    (s.filter (fun t => t.purl == some purl &&
      (t.status == TStatus.running || t.status == TStatus.queued ||
        t.status == TStatus.pending) &&
      now - ACTIVE_TASK_WINDOW_MINUTES ≤ t.createdAt))

/-- `_mark_task_completed_from_existing` of `tasks.py`: copy report and
download url from an existing completed task and complete this one. -/
def mark_task_completed_from_existing (s : Store) (i : Nat) (ex : ATask) (now : Nat) : Store :=
  setTask s i (fun t =>
    { t with
      status := TStatus.completed
      completedAt := some now
      report := ex.report
      downloadUrl := ex.downloadUrl
      queuePosition := none })

/-- Category extraction of `_mark_task_failed`: `error_details.get('error_category',
'unknown_error')`, or `'unknown_error'` when the exception carries no details. -/
def errCategoryOf (e : PyError) : String :=
  e.category.getD "unknown_error"

/-- `_mark_task_failed` of `tasks.py`: unconditionally mark the row failed,
record the error, clear the queue position. -/
def mark_task_failed (s : Store) (i : Nat) (e : PyError) (now : Nat) : Store :=
  setTask s i (fun t =>
    { t with
      status := TStatus.failed
      completedAt := some now
      errorMessage := some e.message
      errorCategory := some (errCategoryOf e)
      queuePosition := none })

/-- Loop body of `_update_queue_positions`: assign position `i`, `i+1`, …
to the listed rows in order. -/
def assignPositions : List ATask → Nat → Store → Store
  | [], _, s => s
  | t :: ts, i, s =>
      assignPositions ts (i + 1) (setTask s t.id (fun u => { u with queuePosition := some i }))

/-- `_update_queue_positions` of `tasks.py`: renumber all queued rows
1..N in `(priority desc, queued_at asc)` order. -/
def update_queue_positions (s : Store) : Store :=
  assignPositions (sortOrd dispatchLE (s.filter (fun t => t.status == TStatus.queued))) 1 s

/-- Dispatch selection of `_process_next_queued_task`:
`filter(status='queued').order_by('-priority', 'queued_at').first()`. -/
def nextQueuedTask (s : Store) : Option ATask :=
  (sortOrd dispatchLE (s.filter (fun t => t.status == TStatus.queued))).head?

/-- Fuelled body of `_process_next_queued_task`.  The source recurses after
completing a queued task from an existing result; each recursion strictly
decreases the number of queued rows, so `length s + 1` fuel suffices. -/
def processNextQueuedFuel : Nat → Store → Nat → Store
  | 0, s, _ => s
  | fuel + 1, s, now =>
    if !(runningTasks s).isEmpty then s
    else
      match nextQueuedTask s with
      | none => s
      | some nt =>
        match reuse_existing_result s nt (some nt.id) with
        | some ex =>
            processNextQueuedFuel fuel
              (update_queue_positions (mark_task_completed_from_existing s nt.id ex now)) now
        | none => s

/-- `_process_next_queued_task` of `tasks.py`.  When the selected task has
no reusable result the source only enqueues a Celery dispatch for it (a
separate `run_dynamic_analysis` step), which writes nothing to the store. -/
def process_next_queued_task (s : Store) (now : Nat) : Store :=
  processNextQueuedFuel (s.length + 1) s now

/-- Row mutation of the queued-to-running transition performed at the end of
`_check_and_prepare_task`: set running, stamp `started_at` and
`last_heartbeat`, clear the queue position. -/
def runSet (now : Nat) (u : ATask) : ATask :=
  { u with
    status := TStatus.running
    startedAt := some now
    queuePosition := none
    lastHeartbeat := some now }

/-- Outcome of `_check_and_prepare_task` as seen by its caller. -/
inductive PrepareResult where
  | missing
  | contention
  | alreadyCompleted
  | reused
  | ready
deriving DecidableEq, Repr

/-- `_check_and_prepare_task` of `tasks.py`: inside one transaction, lock
the row, scan for any other running task (contention → Celery retry),
short-circuit an already-completed task, reuse an existing completed
result, or transition the task to running.  The already-completed branch
returns a 3-tuple in the source while the caller unpacks two values, which
raises `ValueError` in the caller; that is accounted for in
`run_dynamic_analysis` below, not here. -/
def check_and_prepare_task (s : Store) (i : Nat) (now : Nat) : Store × PrepareResult :=
  match findTask s i with
  | none => (s, PrepareResult.missing)
  | some t =>
    if otherRunningExists s i then (s, PrepareResult.contention)
    else if t.status == TStatus.completed then (s, PrepareResult.alreadyCompleted)
    else
      match reuse_existing_result s t (some i) with
      | some ex => (mark_task_completed_from_existing s i ex now, PrepareResult.reused)
      | none => (setTask s i (runSet now), PrepareResult.ready)

/-- `_handle_cached_result` of `tasks.py`: complete the task straight from
the process cache.  The source stores a 0.1 s duration; duration magnitudes
are irrelevant here and kept as 0. -/
def handle_cached_result (s : Store) (i : Nat) (cachedPayload : Nat) (now : Nat) : Store :=
  setTask s i (fun t =>
    { t with
      status := TStatus.completed
      completedAt := some now
      durationSeconds := some 0
      result := some cachedPayload })

/-- `_handle_job_submission` of `tasks.py`: record the K8s job id and move
the task to `submitted`. -/
def handle_job_submission (s : Store) (i : Nat) (jobId : String) : Store :=
  setTask s i (fun t => { t with jobId := some jobId, status := TStatus.submitted })

/-- `_save_task_results` of `tasks.py`: generate the professional report
(outcome abstracted as `profOk`/`url`), then inside a transaction re-read the
row and, only if it is still `running`, complete it with the report and
download url.  When the professional report raises, the guarded write is
never reached and the function returns `none`. -/
def save_task_results (s : Store) (i : Nat) (reportId : Nat) (duration : Option Nat)
    (profOk : Bool) (url : String) (now : Nat) : Store × Option String :=
  if profOk then
    (setTask s i (fun t =>
      if t.status == TStatus.running then
        { t with
          status := TStatus.completed
          completedAt := some now
          durationSeconds := match duration with | some d => some d | none => t.durationSeconds
          report := some reportId
          downloadUrl := some url }
      else t), some url)
  else (s, none)

/-- What `Helper.run_packaml` hands back to `run_dynamic_analysis`: a K8s
job id (as a string or inside a dict), a direct-execution result payload,
or a raised exception. -/
inductive BackendResult where
  | jobSubmitted (jobId : String)
  | payload (data : Nat)
  | errorRaised (e : PyError)
deriving DecidableEq, Repr

/-- Value produced by one `run_dynamic_analysis` invocation: the Celery
retry it schedules, the dict it returns (`None` included), or the final
re-raise after the retry budget is spent. -/
inductive DispatchOutcome where
  | retryScheduled (countdownSeconds : Nat)
  | reusedResult
  | cachedSuccess
  | submittedResp (jobId : String)
  | noneReturned
  | permanentFailure
deriving DecidableEq, Repr

/-- `run_dynamic_analysis` of `tasks.py`, one Celery delivery with
`retries` prior attempts and budget `maxRetries` (source: `max_retries=1`).
Notable source behaviours reproduced faithfully:
the already-completed early return is a 3-tuple unpacked into two names,
so that branch raises `ValueError`, falls into the generic exception
handler, marks the task failed and retries;
the direct-execution completion call is commented out, so a plain result
payload leaves the task `running` and returns `None`;
contention raises a Celery retry with a fixed 30 s countdown while budget
remains, and once the budget is exhausted the retry call raises the plain
`Exception`, which ends in `_mark_task_failed` (category `unknown_error`). -/
def run_dynamic_analysis (s : Store) (i : Nat) (retries maxRetries : Nat)
    (cached : Option Nat) (backend : BackendResult) (now : Nat) :
    Store × DispatchOutcome :=
  match check_and_prepare_task s i now with
  | (s', PrepareResult.contention) =>
    if retries < maxRetries then (s', DispatchOutcome.retryScheduled RETRY_DELAY_SECONDS)
    else
      let s2 := mark_task_failed s' i { message := "Another task is running" } now
      (process_next_queued_task s2 now, DispatchOutcome.permanentFailure)
  | (s', PrepareResult.alreadyCompleted) =>
    let s2 := process_next_queued_task
      (mark_task_failed s' i { message := "too many values to unpack" } now) now
    if retries < maxRetries then
      (s2, DispatchOutcome.retryScheduled (RETRY_BACKOFF_BASE_SECONDS * 2 ^ retries))
    else (s2, DispatchOutcome.permanentFailure)
  | (s', PrepareResult.missing) =>
    let s2 := process_next_queued_task s' now
    if retries < maxRetries then
      (s2, DispatchOutcome.retryScheduled (RETRY_BACKOFF_BASE_SECONDS * 2 ^ retries))
    else (s2, DispatchOutcome.permanentFailure)
  | (s', PrepareResult.reused) =>
    (process_next_queued_task s' now, DispatchOutcome.reusedResult)
  | (s', PrepareResult.ready) =>
    match cached with
    | some payload =>
      (process_next_queued_task (handle_cached_result s' i payload now) now,
        DispatchOutcome.cachedSuccess)
    | none =>
      match backend with
      | BackendResult.jobSubmitted j =>
        (process_next_queued_task (handle_job_submission s' i j) now,
          DispatchOutcome.submittedResp j)
      | BackendResult.payload _ =>
        (process_next_queued_task s' now, DispatchOutcome.noneReturned)
      | BackendResult.errorRaised e =>
        let s2 := process_next_queued_task (mark_task_failed s' i e now) now
        if retries < maxRetries then
          (s2, DispatchOutcome.retryScheduled (RETRY_BACKOFF_BASE_SECONDS * 2 ^ retries))
        else (s2, DispatchOutcome.permanentFailure)

/-- The timeout predicate `AnalysisTask.is_timed_out` used by `check_timeouts`
and the status views.

Modelled from the spec: the `AnalysisTask` model module (`models.py`) is not
under `src/`; only its callers are.  The spec defines the check as
`elapsed = now - started_at; if elapsed > timeout_minutes` (§4.6), i.e. a
running task is timed out iff strictly more than `timeout_minutes` have
passed since `started_at`. -/
def is_timed_out (now : Nat) (t : ATask) : Bool :=
  match t.startedAt with
  | some st => st + t.timeoutMinutes < now
  | none => false

/-- `_handle_timed_out_task` of `tasks.py`, restricted to the row mutation:
fail the task with category `timeout_error`, stamp `completed_at`, clear the
queue position.  The best-effort legacy container stop and the log capture
are external effects without store writes. -/
def handle_timed_out_task (now : Nat) (t : ATask) : ATask :=
  { t with
    status := TStatus.failed
    errorMessage := some "Task timed out"
    errorCategory := some "timeout_error"
    completedAt := some now
    queuePosition := none }

/-- `check_timeouts` of `tasks.py`: collect the running tasks whose
`is_timed_out()` holds; when there are none, return with no writes (and no
process-next call); otherwise fail each of them and then run
`_process_next_queued_task`. -/
def check_timeouts (s : Store) (now : Nat) : Store :=
  if (s.filter (fun t => t.status == TStatus.running && is_timed_out now t)).isEmpty then s
  else
    process_next_queued_task
      (s.map (fun t =>
        if t.status == TStatus.running && is_timed_out now t then
          handle_timed_out_task now t
        else t)) now

/-- `cleanup_old_tasks` of `tasks.py`: delete completed/failed rows whose
`completed_at` lies before the cutoff.  Rows without `completed_at` are
kept (an SQL `completed_at < cutoff` filter never matches NULL). -/
def cleanup_old_tasks (s : Store) (cutoff : Nat) : Store :=
  s.filter (fun t =>
    !((t.status == TStatus.completed || t.status == TStatus.failed) &&
      (match t.completedAt with
       | some c => c < cutoff
       | none => false)))

/-- `reconcile_k8s_jobs` of `tasks.py`.  The entire body of the source
function is `pass`: it queries nothing, writes nothing and returns `None`,
its docstring notwithstanding. -/
def reconcile_k8s_jobs (s : Store) : Store :=
  s

/-- `_handle_succeeded_job` of `tasks.py` (currently unreachable: its only
intended caller, `reconcile_k8s_jobs`, has an empty body).  `resultOk`
stands for a retrievable, `success`-flagged Redis payload; `stStartedAt` /
`stCompletedAt` are the backend-reported timestamps; `profOk`/`url`
abstract `save_professional_report`.  Three separate transactions: promote
`submitted` to `running`, the guarded completion inside
`_save_task_results`, and a final guarded completion for the case in which
`_save_task_results` bailed out. -/
def handle_succeeded_job (s : Store) (i : Nat) (resultOk : Bool)
    (stStartedAt stCompletedAt : Option Nat) (reportId : Nat)
    (profOk : Bool) (url : String) (now : Nat) : Store :=
  if !resultOk then s
  else
    let s1 := setTask s i (fun t =>
      if t.status == TStatus.submitted then
        { t with
          status := TStatus.running
          startedAt := some (stStartedAt.getD t.createdAt) }
      else t)
    let duration := match stStartedAt, stCompletedAt with
      | some a, some b => some (b - a)
      | _, _ => none
    let res := save_task_results s1 i reportId duration profOk url now
    setTask res.1 i (fun t =>
      if t.status == TStatus.running then
        { t with
          status := TStatus.completed
          completedAt := some (stCompletedAt.getD now)
          durationSeconds := match duration with | some d => some d | none => t.durationSeconds
          report := some reportId
          downloadUrl := match res.2 with | some u => some u | none => t.downloadUrl }
      else t)

/-- `_handle_failed_job` of `tasks.py` (unreachable for the same reason):
inside a transaction, re-read and, only if still `submitted`, fail the task
with category `k8s_job_failed` and the backend-reported error text. -/
def handle_failed_job (s : Store) (i : Nat) (errText : Option String)
    (stCompletedAt : Option Nat) (now : Nat) : Store :=
  setTask s i (fun t =>
    if t.status == TStatus.submitted then
      { t with
        status := TStatus.failed
        completedAt := some (stCompletedAt.getD now)
        errorMessage := some (errText.getD "Analysis job failed")
        errorCategory := some "k8s_job_failed" }
    else t)

/-- Response of `job_completed_api` as far as task state is concerned. -/
inductive CallbackResponse where
  | notFound
  | skipped (status : TStatus)
  | noResults
  | completedOk
deriving DecidableEq, Repr

/-- `job_completed_api` of `views.py`: inside one transaction, lock the row;
tasks not in `{running, submitted}` are skipped with a success response;
a missing results payload fails the task with category `results_not_found`
(queue position untouched on that path); otherwise the report is saved and
the task completed, with `queue_position` cleared and `download_url` set
only when the professional report succeeded. -/
def job_completed_api (s : Store) (i : Nat) (resultsFound : Bool) (reportId : Nat)
    (profOk : Bool) (url : String) (now : Nat) : Store × CallbackResponse :=
  match findTask s i with
  | none => (s, CallbackResponse.notFound)
  | some t =>
    if !(t.status == TStatus.running || t.status == TStatus.submitted) then
      (s, CallbackResponse.skipped t.status)
    else if !resultsFound then
      (setTask s i (fun u =>
        { u with
          status := TStatus.failed
          errorMessage := some "No results found in mount path"
          errorCategory := some "results_not_found"
          completedAt := some now }), CallbackResponse.noResults)
    else
      (setTask s i (fun u =>
        { u with
          report := some reportId
          status := TStatus.completed
          completedAt := some now
          durationSeconds := match u.startedAt with
            | some st => some (now - st)
            | none => u.durationSeconds
          downloadUrl := if profOk then some url else u.downloadUrl
          queuePosition := none }), CallbackResponse.completedOk)

/-- `TaskService.queue_task` (the same statements are inlined in
`analyze_api`): one transaction that marks the task queued, stamps
`queued_at`, and assigns `queue_position` as the count of other queued
rows plus one. -/
def queue_task (s : Store) (i : Nat) (now : Nat) : Store :=
  setTask s i (fun t =>
    { t with
      status := TStatus.queued
      queuedAt := some now
      queuePosition := some
        ((s.filter (fun u => u.status == TStatus.queued && u.id != i)).length + 1) })

/-- Response of `analyze_api` as far as task state is concerned. -/
inductive AnalyzeResponse where
  | cachedResult (taskId : Nat)
  | attached (taskId : Nat) (queuePosition : Option Nat)
  | raceAttached (taskId : Nat)
  | created (taskId : Nat) (queuePosition : Nat)
deriving DecidableEq, Repr

/-- `analyze_api` of `views.py` (admission): return a completed task's
result if one exists; else attach to the most recent active task
(status in `{running, queued, pending}`, 24 h window); else the 1-minute
race-condition re-check over the same queryset; else create a pending row
with the store-assigned id `newId`, queue it (inline copy of
`TaskService.queue_task`), and enqueue its Celery dispatch. -/
def analyze_api (s : Store) (purl : String) (priority : Int) (newId : Nat)
    (now : Nat) : Store × AnalyzeResponse :=
  match find_completed_task_by_purl s purl with
  | some ct => (s, AnalyzeResponse.cachedResult ct.id)
  | none =>
    match (find_active_tasks_by_purl s purl now).head? with
    | some a =>
      (s, AnalyzeResponse.attached a.id
        (if a.status == TStatus.queued then a.queuePosition else none))
    | none =>
      match ((find_active_tasks_by_purl s purl now).filter (fun t =>
        now - RACE_CONDITION_CHECK_MINUTES ≤ t.createdAt)).head? with
      | some lt => (s, AnalyzeResponse.raceAttached lt.id)
      | none =>
        let newTask : ATask :=
          { id := newId
            purl := some purl
            status := TStatus.pending
            priority := priority
            createdAt := now }
        let s1 := s ++ [newTask]
        let s2 := queue_task s1 newId now
        (s2, AnalyzeResponse.created newId
          ((s1.filter (fun u => u.status == TStatus.queued && u.id != newId)).length + 1))

/-- One scheduler operation: the atomic store-to-store steps the live code
can perform.  `reconcile_k8s_jobs` is included (it is a no-op);
`_handle_succeeded_job` / `_handle_failed_job` / `_handle_running_job` are
not reachable from any caller in the source and are therefore not steps. -/
inductive Op where
  | dispatchOp (i retries maxRetries : Nat) (cached : Option Nat)
      (backend : BackendResult) (now : Nat)
  | processNextOp (now : Nat)
  | timeoutSweepOp (now : Nat)
  | callbackOp (i : Nat) (resultsFound : Bool) (reportId : Nat) (profOk : Bool)
      (url : String) (now : Nat)
  | analyzeOp (purl : String) (priority : Int) (newId : Nat) (now : Nat)
  | cleanupOp (cutoff : Nat)
  | reconcileOp
deriving Repr

/-- Effect of one scheduler operation on the task store. -/
def applyOp : Op → Store → Store
  | Op.dispatchOp i r m c b now, s => (run_dynamic_analysis s i r m c b now).1
  | Op.processNextOp now, s => process_next_queued_task s now
  | Op.timeoutSweepOp now, s => check_timeouts s now
  | Op.callbackOp i rf rid pok url now, s => (job_completed_api s i rf rid pok url now).1
  | Op.analyzeOp purl pr newId now, s => (analyze_api s purl pr newId now).1
  | Op.cleanupOp cutoff, s => cleanup_old_tasks s cutoff
  | Op.reconcileOp, s => reconcile_k8s_jobs s

/-- Primary keys are store-assigned and unique. -/
def idsNodup (s : Store) : Prop :=
  (s.map ATask.id).Nodup

/-- Store for the C2 evidence: one queued task ready to dispatch. -/
def c2Store : Store :=
  [{ id := 1, purl := some "pkg:pypi/foo@1.0", status := TStatus.queued,
     queuedAt := some 0, queuePosition := some 1 }]

/-- C2: the claim says a Local (direct-execution) run that returns a final
report payload is folded straight into the task, which transitions from
`running` to `completed` before the dispatch returns.  The source instead
has the `_handle_direct_execution_completion` call commented out
(`tasks.py` lines 433–440) and executes `return None`: evaluating the
dispatch at a payload result shows the task is left in `running`, no report
is attached, and the returned value is `None` — contradicting
`run_dynamic_analysis`'s own docstring (a success dict with a duration)
and the purpose of the still-present `_handle_direct_execution_completion`
helper. -/
theorem c2_local_payload_leaves_task_running :
    (run_dynamic_analysis c2Store 1 0 1 none (BackendResult.payload 42) 5).2 =
      DispatchOutcome.noneReturned ∧
    (findTask (run_dynamic_analysis c2Store 1 0 1 none (BackendResult.payload 42) 5).1 1).map
      ATask.status = some TStatus.running ∧
    (findTask (run_dynamic_analysis c2Store 1 0 1 none (BackendResult.payload 42) 5).1 1).map
      ATask.report = some none := by
  decide

/-- Store for the C3 evidence: one `submitted` task whose external job has
finished (failed) and awaits reconciliation. -/
def c3Store : Store :=
  [{ id := 1, purl := some "pkg:pypi/foo@1.0", status := TStatus.submitted,
     jobId := some "job-1", createdAt := 100 }]

/-- C3: the claim says the periodic reconciliation task examines every
`submitted` task and folds terminal backend states in.  The body of
`reconcile_k8s_jobs` in the source is `pass`: it reads nothing and writes
nothing, so a submitted task whose job already failed stays `submitted`
forever — contradicting the function's own docstring (which promises
status checks, result fetching and task updates).  Moreover even the
intended (never-called) failure handler `_handle_failed_job` records
category `k8s_job_failed`, not the claim's `cluster_job_failed`. -/
theorem c3_reconcile_examines_nothing :
    reconcile_k8s_jobs c3Store = c3Store ∧
    (findTask (reconcile_k8s_jobs c3Store) 1).map ATask.status =
      some TStatus.submitted ∧
    (findTask (handle_failed_job c3Store 1 (some "backend error text") none 50) 1).map
      ATask.errorCategory = some (some "k8s_job_failed") := by
  decide

/-- Store for the C4 counterexample: a single terminal (`completed`) task. -/
def c4Store : Store :=
  [{ id := 1, purl := some "pkg:pypi/foo@1.0", status := TStatus.completed,
     completedAt := some 3, report := some 9 }]

/-- C4 counterexample: a dispatch attempt on an already-`completed` task
changes its status.  `_check_and_prepare_task` takes the already-completed
early return, which is a 3-tuple in the source while `run_dynamic_analysis`
unpacks two values; the resulting `ValueError` lands in the generic
exception handler, and `_mark_task_failed` overwrites the completed task to
`failed` (and overwrites `completed_at`), violating terminal immutability. -/
theorem c4_counterexample :
    (findTask c4Store 1).map ATask.status = some TStatus.completed ∧
    (findTask (applyOp (Op.dispatchOp 1 0 1 none (BackendResult.payload 0) 5) c4Store) 1).map
      ATask.status = some TStatus.failed ∧
    (findTask (applyOp (Op.dispatchOp 1 0 1 none (BackendResult.payload 0) 5) c4Store) 1).map
      ATask.completedAt = some (some 5) := by
  decide

/-- Store for the C5 counterexample: identity A, priority 0, queued at
position 1 (as after the claim's first submission). -/
def c5Store : Store :=
  [{ id := 1, purl := some "pkg:pypi/a@1.0", status := TStatus.queued,
     priority := 0, createdAt := 0, queuedAt := some 0, queuePosition := some 1 }]

/-- Store after admitting identity B with priority 5 into `c5Store`. -/
def c5After : Store := (analyze_api c5Store "pkg:pypi/b@1.0" 5 2 10).1

/-- C5 counterexample: the claim's scenario demands that admitting B with
priority 5 next to queued A (priority 0, position 1) gives B
`queue_position = 1` and moves A to 2.  The admission path
(`TaskService.queue_task`, inlined in `analyze_api`) assigns
`count(other queued) + 1` with no reordering: B gets position 2 and A stays
at position 1, so queued positions are not ranked by priority at all times. -/
theorem c5_counterexample :
    (findTask c5After 2).map ATask.queuePosition = some (some 2) ∧
    (findTask c5After 1).map ATask.queuePosition = some (some 1) ∧
    ¬ (findTask c5After 2).map ATask.queuePosition = some (some 1) := by
  decide

/-- Store for the C6 counterexample: an in-flight `submitted` task for the
requested identity, created within the 24 h lookback window. -/
def c6Store : Store :=
  [{ id := 1, purl := some "pkg:pypi/foo@1.0", status := TStatus.submitted,
     jobId := some "job-1", createdAt := 100 }]

/-- C6 counterexample: the claim says a submission matching an active task
with status in `{running, queued, pending, submitted}` inside the window
returns that task instead of creating a row.  The active-task query
(`analyze_api` / `TaskService.find_active_tasks_by_purl`) filters on
`{running, queued, pending}` only, so a matching `submitted` task is
ignored and a brand-new task row is created. -/
theorem c6_counterexample :
    (∃ t ∈ c6Store, t.purl = some "pkg:pypi/foo@1.0" ∧
      t.status = TStatus.submitted ∧ 110 - ACTIVE_TASK_WINDOW_MINUTES ≤ t.createdAt) ∧
    (analyze_api c6Store "pkg:pypi/foo@1.0" 0 2 110).2 = AnalyzeResponse.created 2 1 ∧
    (analyze_api c6Store "pkg:pypi/foo@1.0" 0 2 110).1.length = 2 := by
  decide

/-- Store for the C7 counterexample: two completed tasks for the same
identity with equal `completed_at` and ids 1 < 2. -/
def c7Store : Store :=
  [{ id := 1, purl := some "pkg:pypi/foo@1.0", status := TStatus.completed,
     completedAt := some 100, report := some 7 },
   { id := 2, purl := some "pkg:pypi/foo@1.0", status := TStatus.completed,
     completedAt := some 100, report := some 8 }]

/-- C7 counterexample: the claim says `completed_at` ties are broken by
highest id.  The cache-hit query is `order_by('-completed_at').first()`
with no id key at all; under the store's row order (embedded as a stable
sort) the tie goes to the earlier row, id 1, not the highest id 2. -/
theorem c7_counterexample :
    (analyze_api c7Store "pkg:pypi/foo@1.0" 0 3 200).2 = AnalyzeResponse.cachedResult 1 ∧
    ¬ (analyze_api c7Store "pkg:pypi/foo@1.0" 0 3 200).2 = AnalyzeResponse.cachedResult 2 ∧
    (findTask c7Store 1).map ATask.completedAt = some (some 100) ∧
    (findTask c7Store 2).map ATask.completedAt = some (some 100) := by
  decide

/-- Store for the C8 counterexample: task 1 holds the running slot, task 2
is queued and being dispatched. -/
def c8Store : Store :=
  [{ id := 1, purl := some "pkg:pypi/a@1.0", status := TStatus.running,
     startedAt := some 1 },
   { id := 2, purl := some "pkg:pypi/b@1.0", status := TStatus.queued,
     queuedAt := some 0, queuePosition := some 1 }]

/-- C8 counterexample: the claim says exhausting the bounded retry count
under contention terminally fails the task with category `queue_error`.
In the source the exhausted Celery retry re-raises the plain
`Exception('Another task is running')`, which carries no `error_details`,
so `_mark_task_failed` records category `unknown_error`; `queue_error` is
only ever assigned on the API enqueue-failure path in `views.py`. -/
theorem c8_counterexample :
    (run_dynamic_analysis c8Store 2 1 1 none (BackendResult.payload 0) 9).2 =
      DispatchOutcome.permanentFailure ∧
    (findTask (run_dynamic_analysis c8Store 2 1 1 none (BackendResult.payload 0) 9).1 2).map
      ATask.errorCategory = some (some "unknown_error") ∧
    ¬ (findTask (run_dynamic_analysis c8Store 2 1 1 none (BackendResult.payload 0) 9).1 2).map
      ATask.errorCategory = some (some "queue_error") := by
  decide

/-- Membership is invariant under `insertOrd`. -/
theorem mem_insertOrd (le : α → α → Bool) (x a : α) (l : List α) :
    a ∈ insertOrd le x l ↔ a = x ∨ a ∈ l := by
  induction l with
  | nil => simp [insertOrd]
  | cons y ys ih =>
    simp only [insertOrd]
    split
    · rw [List.mem_cons, ih, List.mem_cons]
      tauto
    · rw [List.mem_cons]

/-- Membership is invariant under `sortOrd`. -/
theorem mem_sortOrd (le : α → α → Bool) (a : α) (l : List α) :
    a ∈ sortOrd le l ↔ a ∈ l := by
  induction l with
  | nil => simp [sortOrd]
  | cons x xs ih =>
    simp [sortOrd, mem_insertOrd, ih]

/-- `insertOrd` preserves sortedness of a total, transitive relation. -/
theorem pairwise_insertOrd (le : α → α → Bool)
    (htotal : ∀ a b, le a b = true ∨ le b a = true)
    (htrans : ∀ a b c, le a b = true → le b c = true → le a c = true)
    (x : α) (l : List α) (hl : l.Pairwise (fun a b => le a b = true)) :
    (insertOrd le x l).Pairwise (fun a b => le a b = true) := by
  induction l with
  | nil => simp [insertOrd]
  | cons y ys ih =>
    rw [List.pairwise_cons] at hl
    obtain ⟨hy, hys⟩ := hl
    simp only [insertOrd]
    split
    · rename_i hcond
      rw [Bool.and_eq_true, Bool.not_eq_true'] at hcond
      rw [List.pairwise_cons]
      refine ⟨?_, ih hys⟩
      intro b hb
      rcases (mem_insertOrd le x b ys).mp hb with hbx | hbm
      · subst hbx; exact hcond.1
      · exact hy b hbm
    · rename_i hcond
      rw [List.pairwise_cons]
      constructor
      · intro b hb
        have hxy : le x y = true := by
          rcases htotal x y with h | h
          · exact h
          · by_cases h2 : le x y = true
            · exact h2
            · rw [Bool.not_eq_true] at h2
              simp [h, h2] at hcond
        rcases List.mem_cons.mp hb with hby | hbm
        · subst hby; exact hxy
        · exact htrans x y b hxy (hy b hbm)
      · exact List.Pairwise.cons hy hys

/-- `sortOrd` sorts: the output is pairwise ordered by `le`. -/
theorem pairwise_sortOrd (le : α → α → Bool)
    (htotal : ∀ a b, le a b = true ∨ le b a = true)
    (htrans : ∀ a b c, le a b = true → le b c = true → le a c = true)
    (l : List α) : (sortOrd le l).Pairwise (fun a b => le a b = true) := by
  induction l with
  | nil => simp [sortOrd]
  | cons x xs ih => exact pairwise_insertOrd le htotal htrans x (sortOrd le xs) ih

/-- The head of a stable sort is `le`-before every element of the list. -/
theorem sortOrd_head_le (le : α → α → Bool)
    (htotal : ∀ a b, le a b = true ∨ le b a = true)
    (htrans : ∀ a b c, le a b = true → le b c = true → le a c = true)
    (l : List α) (a : α) (h : (sortOrd le l).head? = some a) :
    ∀ b ∈ l, le a b = true := by
  intro b hb
  have hb' : b ∈ sortOrd le l := (mem_sortOrd le b l).mpr hb
  have hp := pairwise_sortOrd le htotal htrans l
  cases hs : sortOrd le l with
  | nil => rw [hs] at hb'; simp at hb'
  | cons c cs =>
    rw [hs] at hp hb'
    have hca : c = a := by rw [hs] at h; simpa using h
    subst hca
    rw [List.pairwise_cons] at hp
    rcases List.mem_cons.mp hb' with hbc | hbm
    · subst hbc
      rcases htotal b b with h2 | h2 <;> exact h2
    · exact hp.1 b hbm

/-- A found row is a member with the looked-up id. -/
theorem findTask_mem {s : Store} {j : Nat} {u : ATask}
    (h : findTask s j = some u) : u ∈ s ∧ u.id = j := by
  refine ⟨List.mem_of_find?_eq_some h, ?_⟩
  have := List.find?_some h
  simpa using this

/-- With unique primary keys there is at most one row per id, so any member
with the looked-up id is the found row. -/
theorem findTask_eq_of_mem {s : Store} {j : Nat} {u v : ATask}
    (hnd : idsNodup s) (h : findTask s j = some u) (hv : v ∈ s) (hvj : v.id = j) :
    v = u := by
  obtain ⟨hu, huj⟩ := findTask_mem h
  exact List.inj_on_of_nodup_map hnd hv hu (by rw [hvj, huj])

/-- Row lookup after an update by id, provided the update preserves ids. -/
theorem findTask_setTask (s : Store) (i j : Nat) (f : ATask → ATask)
    (hf : ∀ t, (f t).id = t.id) :
    findTask (setTask s i f) j =
      if j = i then (findTask s i).map f else findTask s j := by
  unfold findTask setTask
  rw [List.find?_map]
  have hg : ((fun t : ATask => t.id == j) ∘ fun t : ATask => if t.id == i then f t else t)
      = fun t : ATask => t.id == j := by
    funext u
    by_cases h : u.id = i
    · simp [Function.comp, h, hf]
    · simp [Function.comp, h]
  rw [hg]
  by_cases hji : j = i
  · subst hji
    cases hfind : s.find? (fun t => t.id == j) with
    | none => simp
    | some u =>
      have huj : u.id = j := by simpa using List.find?_some hfind
      simp [huj]
  · simp only [if_neg hji]
    cases hfind : s.find? (fun t => t.id == j) with
    | none => simp
    | some u =>
      have huj : u.id = j := by simpa using List.find?_some hfind
      have : u.id ≠ i := by rw [huj]; exact hji
      simp [this]

/-- An id-preserving update leaves the id column unchanged. -/
theorem map_id_setTask (s : Store) (i : Nat) (f : ATask → ATask)
    (hf : ∀ t, (f t).id = t.id) :
    (setTask s i f).map ATask.id = s.map ATask.id := by
  unfold setTask
  rw [List.map_map]
  apply List.map_congr_left
  intro a _
  by_cases h : a.id = i
  · simp [Function.comp, h, hf]
  · simp [Function.comp, h]

/-- An id-preserving update preserves uniqueness of primary keys. -/
theorem idsNodup_setTask {s : Store} (i : Nat) (f : ATask → ATask)
    (hf : ∀ t, (f t).id = t.id) (h : idsNodup s) : idsNodup (setTask s i f) := by
  unfold idsNodup
  rw [map_id_setTask s i f hf]
  exact h

/-- Updates that never produce a `p`-row do not increase the `p`-count. -/
theorem countP_setTask_le (s : Store) (i : Nat) (f : ATask → ATask)
    (p : ATask → Bool) (hp : ∀ t, p (f t) = true → p t = true) :
    (setTask s i f).countP p ≤ s.countP p := by
  unfold setTask
  rw [List.countP_map]
  apply List.countP_mono_left
  intro a _ h
  by_cases hai : a.id = i
  · simp only [Function.comp, hai, beq_self_eq_true, if_true] at h
    exact hp a h
  · simpa [Function.comp, hai] using h

/-- Status-preserving updates keep every status count unchanged. -/
theorem countP_setTask_eq (s : Store) (i : Nat) (f : ATask → ATask)
    (p : ATask → Bool) (hp : ∀ t, p (f t) = p t) :
    (setTask s i f).countP p = s.countP p := by
  unfold setTask
  rw [List.countP_map]
  apply List.countP_congr
  intro a _
  by_cases hai : a.id = i
  · simp [Function.comp, hai, hp]
  · simp [Function.comp, hai]

/-- With unique primary keys, at most one row carries a given id. -/
theorem countP_id_le_one {s : Store} (hnd : idsNodup s) (i : Nat) :
    s.countP (fun t => t.id == i) ≤ 1 := by
  have h1 : s.countP (fun t => t.id == i) = (s.map ATask.id).count i := by
    rw [List.count_eq_countP, List.countP_map]
    rfl
  rw [h1]
  exact List.nodup_iff_count_le_one.mp hnd i

/-- `assignPositions` does not touch rows whose id is not in its list. -/
theorem findTask_assignPositions (l : List ATask) (k : Nat) (s : Store) (j : Nat)
    (h : ∀ u ∈ l, u.id ≠ j) :
    findTask (assignPositions l k s) j = findTask s j := by
  induction l generalizing k s with
  | nil => rfl
  | cons t ts ih =>
    simp only [assignPositions]
    rw [ih _ _ (fun u hu => h u (List.mem_cons_of_mem _ hu))]
    rw [findTask_setTask s t.id j (fun u => { u with queuePosition := some k })
      (fun u => rfl)]
    rw [if_neg (fun hj => h t (List.mem_cons_self t ts) hj.symm)]

/-- `assignPositions` preserves the id column. -/
theorem map_id_assignPositions (l : List ATask) (k : Nat) (s : Store) :
    (assignPositions l k s).map ATask.id = s.map ATask.id := by
  induction l generalizing k s with
  | nil => rfl
  | cons t ts ih =>
    simp only [assignPositions]
    rw [ih, map_id_setTask s t.id (fun u => { u with queuePosition := some k })
      (fun u => rfl)]

/-- `assignPositions` preserves uniqueness of primary keys. -/
theorem idsNodup_assignPositions (l : List ATask) (k : Nat) {s : Store}
    (h : idsNodup s) : idsNodup (assignPositions l k s) := by
  unfold idsNodup
  rw [map_id_assignPositions]
  exact h

/-- `assignPositions` only writes queue positions, so status counts stay. -/
theorem countP_status_assignPositions (l : List ATask) (k : Nat) (s : Store)
    (p : ATask → Bool) (hp : ∀ t q, p { t with queuePosition := q } = p t) :
    (assignPositions l k s).countP p = s.countP p := by
  induction l generalizing k s with
  | nil => rfl
  | cons t ts ih =>
    simp only [assignPositions]
    rw [ih, countP_setTask_eq _ _ _ _ (fun u => hp u _)]

/-- `_update_queue_positions` leaves rows that are not queued untouched. -/
theorem findTask_update_queue_positions {s : Store} {j : Nat} {t : ATask}
    (hnd : idsNodup s) (hf : findTask s j = some t)
    (hq : t.status ≠ TStatus.queued) :
    findTask (update_queue_positions s) j = findTask s j := by
  unfold update_queue_positions
  apply findTask_assignPositions
  intro u hu huj
  have hu' : u ∈ s.filter (fun v => v.status == TStatus.queued) :=
    (mem_sortOrd _ u _).mp hu
  have humem : u ∈ s := List.mem_of_mem_filter hu'
  have hust : u.status = TStatus.queued := by
    simpa using List.of_mem_filter hu'
  have : u = t := findTask_eq_of_mem hnd hf humem huj
  rw [this] at hust
  exact hq hust

/-- `_update_queue_positions` preserves the running count. -/
theorem runningCount_update_queue_positions (s : Store) :
    runningCount (update_queue_positions s) = runningCount s := by
  unfold update_queue_positions runningCount
  exact countP_status_assignPositions _ _ _ _ (fun t q => rfl)

/-- `_update_queue_positions` preserves uniqueness of primary keys. -/
theorem idsNodup_update_queue_positions {s : Store} (h : idsNodup s) :
    idsNodup (update_queue_positions s) :=
  idsNodup_assignPositions _ _ h

/-- The task selected by `_process_next_queued_task` is a queued row. -/
theorem nextQueuedTask_mem {s : Store} {nt : ATask}
    (h : nextQueuedTask s = some nt) : nt ∈ s ∧ nt.status = TStatus.queued := by
  unfold nextQueuedTask at h
  have hmem : nt ∈ sortOrd dispatchLE (s.filter (fun t => t.status == TStatus.queued)) := by
    cases hl : sortOrd dispatchLE (s.filter (fun t => t.status == TStatus.queued)) with
    | nil => rw [hl] at h; simp at h
    | cons a as =>
      rw [hl] at h
      simp only [List.head?_cons, Option.some.injEq] at h
      rw [h]
      exact List.mem_cons_self nt as
  have hf : nt ∈ s.filter (fun t => t.status == TStatus.queued) :=
    (mem_sortOrd _ nt _).mp hmem
  exact ⟨List.mem_of_mem_filter hf, by simpa using List.of_mem_filter hf⟩

/-- `_mark_task_completed_from_existing` never creates a running row. -/
theorem runningCount_mark_completed_le (s : Store) (i : Nat) (ex : ATask) (now : Nat) :
    runningCount (mark_task_completed_from_existing s i ex now) ≤ runningCount s := by
  unfold mark_task_completed_from_existing runningCount
  apply countP_setTask_le
  intro t h
  simp at h

/-- `_mark_task_failed` never creates a running row. -/
theorem runningCount_mark_failed_le (s : Store) (i : Nat) (e : PyError) (now : Nat) :
    runningCount (mark_task_failed s i e now) ≤ runningCount s := by
  unfold mark_task_failed runningCount
  apply countP_setTask_le
  intro t h
  simp at h

/-- A store that still has a running row is left alone by
`_process_next_queued_task` (the source returns before selecting a task). -/
theorem processNextFuel_of_running (fuel : Nat) (s : Store) (now : Nat)
    (h : runningCount s ≠ 0) : processNextQueuedFuel fuel s now = s := by
  cases fuel with
  | zero => rfl
  | succ n =>
    unfold processNextQueuedFuel
    have hne : (runningTasks s).isEmpty = false := by
      rw [List.isEmpty_eq_false_iff_exists_mem]
      have : 0 < runningCount s := Nat.pos_of_ne_zero h
      rw [runningCount, List.countP_pos_iff] at this
      obtain ⟨a, ha, hpa⟩ := this
      exact ⟨a, by rw [runningTasks, List.mem_filter]; exact ⟨ha, hpa⟩⟩
    rw [hne]
    simp

/-- `_process_next_queued_task` never increases the running count. -/
theorem runningCount_processNextFuel (fuel : Nat) (s : Store) (now : Nat) :
    runningCount (processNextQueuedFuel fuel s now) ≤ runningCount s := by
  induction fuel generalizing s with
  | zero => exact Nat.le_refl _
  | succ n ih =>
    unfold processNextQueuedFuel
    split
    · exact Nat.le_refl _
    · cases hnt : nextQueuedTask s with
      | none => simp [hnt]
      | some nt =>
        cases hex : reuse_existing_result s nt (some nt.id) with
        | none => simp [hnt, hex]
        | some ex =>
          simp only [hnt, hex]
          calc runningCount (processNextQueuedFuel n
                  (update_queue_positions
                    (mark_task_completed_from_existing s nt.id ex now)) now)
              ≤ runningCount (update_queue_positions
                  (mark_task_completed_from_existing s nt.id ex now)) := ih _
            _ = runningCount (mark_task_completed_from_existing s nt.id ex now) :=
                runningCount_update_queue_positions _
            _ ≤ runningCount s := runningCount_mark_completed_le _ _ _ _

/-- `_process_next_queued_task` preserves uniqueness of primary keys. -/
theorem idsNodup_processNextFuel (fuel : Nat) {s : Store} (now : Nat)
    (h : idsNodup s) : idsNodup (processNextQueuedFuel fuel s now) := by
  induction fuel generalizing s with
  | zero => exact h
  | succ n ih =>
    unfold processNextQueuedFuel
    split
    · exact h
    · cases hnt : nextQueuedTask s with
      | none => simpa [hnt] using h
      | some nt =>
        cases hex : reuse_existing_result s nt (some nt.id) with
        | none => simpa [hnt, hex] using h
        | some ex =>
          simp only [hnt, hex]
          exact ih (idsNodup_update_queue_positions
            (idsNodup_setTask _ _ (fun u => rfl) h))

/-- Frame property of `_process_next_queued_task`: it only ever writes
queued rows, so any non-queued row survives unchanged. -/
theorem findTask_processNextFuel (fuel : Nat) {s : Store} (now : Nat) {j : Nat}
    {t : ATask} (hnd : idsNodup s) (hf : findTask s j = some t)
    (hq : t.status ≠ TStatus.queued) :
    findTask (processNextQueuedFuel fuel s now) j = some t := by
  induction fuel generalizing s with
  | zero => exact hf
  | succ n ih =>
    unfold processNextQueuedFuel
    split
    · exact hf
    · cases hnt : nextQueuedTask s with
      | none => simpa [hnt] using hf
      | some nt =>
        cases hex : reuse_existing_result s nt (some nt.id) with
        | none => simpa [hnt, hex] using hf
        | some ex =>
          simp only [hnt, hex]
          obtain ⟨hntmem, hntq⟩ := nextQueuedTask_mem hnt
          have hntj : nt.id ≠ j := by
            intro hj
            have : nt = t := findTask_eq_of_mem hnd hf hntmem hj
            rw [this] at hntq
            exact hq hntq
          have hmark : findTask (mark_task_completed_from_existing s nt.id ex now) j = some t := by
            unfold mark_task_completed_from_existing
            rw [findTask_setTask s nt.id j
              (fun u =>
                { u with
                  status := TStatus.completed
                  completedAt := some now
                  report := ex.report
                  downloadUrl := ex.downloadUrl
                  queuePosition := none })
              (fun u => rfl), if_neg (fun hji => hntj hji.symm)]
            exact hf
          have hndm : idsNodup (mark_task_completed_from_existing s nt.id ex now) :=
            idsNodup_setTask _ _ (fun u => rfl) hnd
          have hupd : findTask (update_queue_positions
              (mark_task_completed_from_existing s nt.id ex now)) j = some t := by
            rw [findTask_update_queue_positions hndm hmark hq]
            exact hmark
          exact ih (idsNodup_update_queue_positions hndm) hupd

/-- `_process_next_queued_task` never promotes a row to running: a row that
is running afterwards was running before. -/
theorem processNextFuel_nonPromoting (fuel : Nat) {s : Store} (now : Nat)
    {j : Nat} {u u' : ATask} (h1 : findTask s j = some u)
    (h2 : findTask (processNextQueuedFuel fuel s now) j = some u')
    (hr : u'.status = TStatus.running) : u.status = TStatus.running := by
  by_cases h : runningCount s = 0
  · exfalso
    have hle := runningCount_processNextFuel fuel s now
    rw [h, Nat.le_zero] at hle
    have hpos : 0 < runningCount (processNextQueuedFuel fuel s now) := by
      rw [runningCount, List.countP_pos_iff]
      exact ⟨u', List.mem_of_find?_eq_some h2, by simp [hr]⟩
    omega
  · rw [processNextFuel_of_running fuel s now h] at h2
    rw [h1] at h2
    cases h2
    exact hr

/-- Row lookup commutes with a per-row update that preserves ids. -/
theorem findTask_map (s : Store) (g : ATask → ATask) (j : Nat)
    (hg : ∀ t, (g t).id = t.id) :
    findTask (s.map g) j = (findTask s j).map g := by
  unfold findTask
  rw [List.find?_map]
  have hp : ((fun t : ATask => t.id == j) ∘ g) = fun t : ATask => t.id == j := by
    funext u
    simp [Function.comp, hg]
  rw [hp]

/-- A per-row update that preserves ids preserves the id column. -/
theorem map_id_map (s : Store) (g : ATask → ATask) (hg : ∀ t, (g t).id = t.id) :
    (s.map g).map ATask.id = s.map ATask.id := by
  rw [List.map_map]
  apply List.map_congr_left
  intro a _
  simp [Function.comp, hg]

/-- Store for the C9 witness: one running task started at minute 10 with a
30-minute budget, observed at minute 41. -/
def c9Store : Store :=
  [{ id := 1, purl := some "pkg:pypi/foo@1.0", status := TStatus.running,
     startedAt := some 10, timeoutMinutes := 30 }]

/-- C9: timeout determinism.  For any store with unique ids, any running
task with `started_at = T0` and budget `timeout_minutes`, observed by the
`check_timeouts` sweep at any instant strictly past `T0 + timeout_minutes`,
ends the sweep failed with category `timeout_error`, `completed_at` set to
the observation instant, and `queue_position` cleared.  (The timeout
predicate `is_timed_out` is modelled from the spec because `models.py` is
not part of the sources; everything else is the `tasks.py` sweep.) -/
theorem c9_timeout_determinism (s : Store) (i now : Nat) (t : ATask)
    (hnd : idsNodup s) (hf : findTask s i = some t)
    (hrun : t.status = TStatus.running)
    (hlate : ∃ T0, t.startedAt = some T0 ∧ T0 + t.timeoutMinutes < now) :
    ∃ t', findTask (check_timeouts s now) i = some t' ∧
      t'.status = TStatus.failed ∧
      t'.errorCategory = some "timeout_error" ∧
      t'.completedAt = some now ∧
      t'.queuePosition = none := by
  obtain ⟨T0, hst, hlt⟩ := hlate
  have hto : is_timed_out now t = true := by
    unfold is_timed_out
    rw [hst]
    simpa using hlt
  have hpred : (t.status == TStatus.running && is_timed_out now t) = true := by
    rw [hrun, hto]
    rfl
  have htmem : t ∈ s := (findTask_mem hf).1
  refine ⟨handle_timed_out_task now t, ?_, rfl, rfl, rfl, rfl⟩
  unfold check_timeouts
  have hne : (s.filter (fun u => u.status == TStatus.running && is_timed_out now u)).isEmpty
      = false := by
    rw [List.isEmpty_eq_false_iff_exists_mem]
    exact ⟨t, List.mem_filter.mpr ⟨htmem, hpred⟩⟩
  rw [hne, if_neg Bool.false_ne_true]
  set g := fun u : ATask =>
    if u.status == TStatus.running && is_timed_out now u then
      handle_timed_out_task now u
    else u with hgdef
  have hgid : ∀ u, (g u).id = u.id := by
    intro u
    rw [hgdef]
    by_cases h : (u.status == TStatus.running && is_timed_out now u) = true
    · simp [h, handle_timed_out_task]
    · simp [h]
  have hmapped : findTask (s.map g) i = some (handle_timed_out_task now t) := by
    rw [findTask_map s g i hgid, hf]
    show some (g t) = some (handle_timed_out_task now t)
    rw [hgdef]
    simp only [hpred, if_true]
  apply findTask_processNextFuel
  · unfold idsNodup
    rw [map_id_map s g hgid]
    exact hnd
  · exact hmapped
  · intro hq
    simp [handle_timed_out_task] at hq

/-- Witness for C9 at `c9Store`. -/
theorem c9_timeout_determinism_witness :
    ∃ t', findTask (check_timeouts c9Store 41) 1 = some t' ∧
      t'.status = TStatus.failed ∧
      t'.errorCategory = some "timeout_error" ∧
      t'.completedAt = some 41 ∧
      t'.queuePosition = none :=
  c9_timeout_determinism c9Store 1 41
    { id := 1, purl := some "pkg:pypi/foo@1.0", status := TStatus.running,
      startedAt := some 10, timeoutMinutes := 30 }
    (by unfold idsNodup; decide) (by decide) (by decide) ⟨10, by decide, by decide⟩

/-- An update that fixes every row carrying the target id is a no-op. -/
theorem setTask_eq_self (s : Store) (i : Nat) (f : ATask → ATask)
    (h : ∀ t ∈ s, t.id = i → f t = t) : setTask s i f = s := by
  unfold setTask
  induction s with
  | nil => rfl
  | cons a as ih =>
    simp only [List.map_cons]
    rw [ih (fun t ht hti => h t (List.mem_cons_of_mem a ht) hti)]
    by_cases hai : a.id = i
    · rw [if_pos (by simpa using hai), h a (List.mem_cons_self a as) hai]
    · rw [if_neg (by simpa using hai)]

/-- The guarded completion write of `_save_task_results` is a no-op on any
store whose target row is not `running`. -/
theorem save_task_results_frame (s : Store) (i reportId : Nat)
    (duration : Option Nat) (profOk : Bool) (url : String) (now : Nat)
    (h : ∀ t ∈ s, t.id = i → t.status ≠ TStatus.running) :
    (save_task_results s i reportId duration profOk url now).1 = s := by
  unfold save_task_results
  by_cases hp : profOk
  · rw [if_pos hp]
    exact setTask_eq_self s i _ (fun t ht hti => by simp [h t ht hti])
  · rw [if_neg hp]

/-- C10: implicit completion guard.  The result-finalisation writes
(`_save_task_results` and the completion fold-in of `_handle_succeeded_job`)
re-read the row inside their transaction and complete it only when the
freshly read status is `running`; on a row in any other status — in
particular one already failed by the timeout monitor — they leave the
store byte-for-byte unchanged, so a late result never overwrites a
terminal failure; and when the row is still `running` (and the
professional report succeeds) the write installs `completed`,
`completed_at`, the report reference and the download url. -/
theorem c10_finalization_guard (s : Store) (i reportId : Nat)
    (duration stStartedAt stCompletedAt : Option Nat)
    (profOk : Bool) (url : String) (now : Nat) :
    ((∀ t ∈ s, t.id = i → t.status ≠ TStatus.running) →
      (save_task_results s i reportId duration profOk url now).1 = s) ∧
    ((∀ t ∈ s, t.id = i → t.status = TStatus.failed) →
      handle_succeeded_job s i true stStartedAt stCompletedAt reportId profOk url now = s) ∧
    (∀ t, findTask s i = some t → t.status = TStatus.running → profOk = true →
      ∃ t', findTask (save_task_results s i reportId duration profOk url now).1 i = some t' ∧
        t'.status = TStatus.completed ∧ t'.completedAt = some now ∧
        t'.report = some reportId ∧ t'.downloadUrl = some url) := by
  refine ⟨save_task_results_frame s i reportId duration profOk url now, ?_, ?_⟩
  · intro hfail
    unfold handle_succeeded_job
    simp only [Bool.not_true, Bool.false_eq_true, if_false]
    have h1 : setTask s i (fun t =>
        if t.status == TStatus.submitted then
          { t with
            status := TStatus.running
            startedAt := some (stStartedAt.getD t.createdAt) }
        else t) = s :=
      setTask_eq_self s i _ (fun t ht hti => by simp [hfail t ht hti])
    rw [h1]
    rw [save_task_results_frame s i reportId _ profOk url now
      (fun t ht hti => by rw [hfail t ht hti]; exact fun hc => TStatus.noConfusion hc)]
    exact setTask_eq_self s i _ (fun t ht hti => by simp [hfail t ht hti])
  · intro t hf hrun hprof
    subst hprof
    unfold save_task_results
    rw [if_pos rfl]
    refine ⟨{ t with
        status := TStatus.completed
        completedAt := some now
        durationSeconds := match duration with | some d => some d | none => t.durationSeconds
        report := some reportId
        downloadUrl := some url }, ?_, rfl, rfl, rfl, rfl⟩
    rw [findTask_setTask s i i _ (fun u => by
      by_cases h : (u.status == TStatus.running) = true <;> simp [h]),
      if_pos rfl, hf]
    show some _ = some _
    simp [hrun]

/-- Store for the C10 witness: one task already failed by the timeout
monitor. -/
def c10Store : Store :=
  [{ id := 1, purl := some "pkg:pypi/foo@1.0", status := TStatus.failed,
     errorCategory := some "timeout_error", completedAt := some 50 }]

/-- Store for the C10 witness, positive direction: one running task. -/
def c10RunStore : Store :=
  [{ id := 1, purl := some "pkg:pypi/foo@1.0", status := TStatus.running,
     startedAt := some 10 }]

/-- Witness for C10: a late result leaves a timed-out (failed) task
untouched under both finalisation writes, and completes a running one. -/
theorem c10_finalization_guard_witness :
    (save_task_results c10Store 1 5 none true "u" 60).1 = c10Store ∧
    handle_succeeded_job c10Store 1 true (some 10) (some 55) 5 true "u" 60 = c10Store ∧
    (∃ t', findTask (save_task_results c10RunStore 1 5 none true "u" 60).1 1 = some t' ∧
      t'.status = TStatus.completed ∧ t'.completedAt = some 60 ∧
      t'.report = some 5 ∧ t'.downloadUrl = some "u") :=
  ⟨(c10_finalization_guard c10Store 1 5 none (some 10) (some 55) true "u" 60).1
      (by decide),
   (c10_finalization_guard c10Store 1 5 none (some 10) (some 55) true "u" 60).2.1
      (by decide),
   (c10_finalization_guard c10RunStore 1 5 none (some 10) (some 55) true "u" 60).2.2
      { id := 1, purl := some "pkg:pypi/foo@1.0", status := TStatus.running,
        startedAt := some 10 }
      (by decide) (by decide) rfl⟩

/-- Row-level effect of `_mark_task_failed` on its target. -/
theorem findTask_mark_task_failed_self (s : Store) (i : Nat) (e : PyError)
    (now : Nat) (t : ATask) (hf : findTask s i = some t) :
    findTask (mark_task_failed s i e now) i =
      some { t with
        status := TStatus.failed
        completedAt := some now
        errorMessage := some e.message
        errorCategory := some (errCategoryOf e)
        queuePosition := none } := by
  unfold mark_task_failed
  rw [findTask_setTask s i i
    (fun u => { u with
      status := TStatus.failed
      completedAt := some now
      errorMessage := some e.message
      errorCategory := some (errCategoryOf e)
      queuePosition := none })
    (fun u => rfl), if_pos rfl, hf]
  rfl

/-- C8 amended: dispatch contention handling.  When a dispatch attempt
finds another running task it writes nothing and schedules a retry of the
same attempt after the fixed `RETRY_DELAY_SECONDS = 30` delay, as long as
the bounded Celery retry budget remains; once the budget is exhausted the
task is terminally failed — but with error category `unknown_error` (the
re-raised contention exception carries no `error_details`), not the
claimed `queue_error`. -/
theorem c8_contention_amended (s : Store) (i retries maxRetries : Nat)
    (cached : Option Nat) (backend : BackendResult) (now : Nat) (t : ATask)
    (hf : findTask s i = some t) (hc : otherRunningExists s i = true) :
    (retries < maxRetries →
      run_dynamic_analysis s i retries maxRetries cached backend now =
        (s, DispatchOutcome.retryScheduled RETRY_DELAY_SECONDS)) ∧
    (maxRetries ≤ retries →
      (run_dynamic_analysis s i retries maxRetries cached backend now).2 =
        DispatchOutcome.permanentFailure ∧
      ∃ t', findTask
          (run_dynamic_analysis s i retries maxRetries cached backend now).1 i = some t' ∧
        t'.status = TStatus.failed ∧ t'.errorCategory = some "unknown_error" ∧
        t'.completedAt = some now ∧ t'.queuePosition = none) := by
  have hcap : check_and_prepare_task s i now = (s, PrepareResult.contention) := by
    unfold check_and_prepare_task
    rw [hf]
    simp only [hc, if_true]
  constructor
  · intro hlt
    unfold run_dynamic_analysis
    rw [hcap]
    simp only [hlt, if_true]
  · intro hge
    have hnlt : ¬ retries < maxRetries := by omega
    unfold run_dynamic_analysis
    rw [hcap]
    simp only [hnlt, if_false]
    refine ⟨trivial, ?_⟩
    have hrc : runningCount (mark_task_failed s i
        { message := "Another task is running" } now) ≠ 0 := by
      rw [otherRunningExists, List.any_eq_true] at hc
      obtain ⟨v, hv, hvp⟩ := hc
      rw [Bool.and_eq_true] at hvp
      have hvrun : v.status = TStatus.running := by simpa using hvp.1
      have hvid : v.id ≠ i := by simpa using hvp.2
      have hvmem : v ∈ mark_task_failed s i { message := "Another task is running" } now := by
        unfold mark_task_failed setTask
        exact List.mem_map.mpr ⟨v, hv, by rw [if_neg (by simpa using hvid)]⟩
      intro hzero
      have : 0 < runningCount (mark_task_failed s i
          { message := "Another task is running" } now) := by
        rw [runningCount, List.countP_pos_iff]
        exact ⟨v, hvmem, by simp [hvrun]⟩
      omega
    unfold process_next_queued_task
    rw [processNextFuel_of_running _ _ _ hrc]
    refine ⟨{ t with
        status := TStatus.failed
        completedAt := some now
        errorMessage := some "Another task is running"
        errorCategory := some "unknown_error"
        queuePosition := none }, ?_, rfl, rfl, rfl, rfl⟩
    rw [findTask_mark_task_failed_self s i { message := "Another task is running" } now t hf]
    rfl

/-- Witness for the amended C8 at `c8Store` (budget left: retry after 30 s;
budget spent: terminal failure with `unknown_error`). -/
theorem c8_contention_amended_witness :
    run_dynamic_analysis c8Store 2 0 1 none (BackendResult.payload 0) 9 =
      (c8Store, DispatchOutcome.retryScheduled RETRY_DELAY_SECONDS) ∧
    ((run_dynamic_analysis c8Store 2 1 1 none (BackendResult.payload 0) 9).2 =
        DispatchOutcome.permanentFailure ∧
      ∃ t', findTask
          (run_dynamic_analysis c8Store 2 1 1 none (BackendResult.payload 0) 9).1 2 = some t' ∧
        t'.status = TStatus.failed ∧ t'.errorCategory = some "unknown_error" ∧
        t'.completedAt = some 9 ∧ t'.queuePosition = none) :=
  ⟨(c8_contention_amended c8Store 2 0 1 none (BackendResult.payload 0) 9
      { id := 2, purl := some "pkg:pypi/b@1.0", status := TStatus.queued,
        queuedAt := some 0, queuePosition := some 1 }
      (by decide) (by decide)).1 (by decide),
   (c8_contention_amended c8Store 2 1 1 none (BackendResult.payload 0) 9
      { id := 2, purl := some "pkg:pypi/b@1.0", status := TStatus.queued,
        queuedAt := some 0, queuePosition := some 1 }
      (by decide) (by decide)).2 (by decide)⟩

/-- Store for the C5 witness: queued task A (id 1) at position 1 and a
pending task B (id 2, priority 5) about to be queued. -/
def c5PendStore : Store :=
  [{ id := 1, purl := some "pkg:pypi/a@1.0", status := TStatus.queued,
     priority := 0, createdAt := 0, queuedAt := some 0, queuePosition := some 1 },
   { id := 2, purl := some "pkg:pypi/b@1.0", status := TStatus.pending,
     priority := 5, createdAt := 10 }]

/-- C5 amended: queue positions at admission.  `TaskService.queue_task`
(inlined in `analyze_api`) assigns the newly queued task the position
`count(other queued) + 1` — arrival order, regardless of priority — and
leaves every other row untouched, so in the claim's scenario B (priority 5)
gets `queue_position = 2` while A keeps 1, even though the ranked
`(priority desc, queued_at asc)` renumbering of `_update_queue_positions`
(which runs only when a queued task is completed off the queue) would give
B position 1 and A position 2, and even though dispatch selection does pick
B first. -/
theorem c5_queue_position_amended (s : Store) (i now : Nat) :
    ((findTask (queue_task s i now) i).map (fun t => (t.status, t.queuePosition)) =
      (findTask s i).map (fun _ => (TStatus.queued,
        some ((s.filter (fun u => u.status == TStatus.queued && u.id != i)).length + 1)))) ∧
    (∀ j, j ≠ i → findTask (queue_task s i now) j = findTask s j) ∧
    ((findTask (update_queue_positions c5After) 2).map ATask.queuePosition =
        some (some 1) ∧
      (findTask (update_queue_positions c5After) 1).map ATask.queuePosition =
        some (some 2) ∧
      (nextQueuedTask c5After).map ATask.id = some 2) := by
  refine ⟨?_, ?_, by decide, by decide, by decide⟩
  · unfold queue_task
    rw [findTask_setTask s i i
      (fun t => { t with
        status := TStatus.queued
        queuedAt := some now
        queuePosition := some
          ((s.filter (fun u => u.status == TStatus.queued && u.id != i)).length + 1) })
      (fun u => rfl), if_pos rfl]
    cases findTask s i <;> rfl
  · intro j hji
    unfold queue_task
    rw [findTask_setTask s i j
      (fun t => { t with
        status := TStatus.queued
        queuedAt := some now
        queuePosition := some
          ((s.filter (fun u => u.status == TStatus.queued && u.id != i)).length + 1) })
      (fun u => rfl), if_neg hji]

/-- Witness for the amended C5 at `c5PendStore`. -/
theorem c5_queue_position_amended_witness :
    ((findTask (queue_task c5PendStore 2 10) 2).map (fun t => (t.status, t.queuePosition)) =
      (findTask c5PendStore 2).map (fun _ => (TStatus.queued,
        some ((c5PendStore.filter
          (fun u => u.status == TStatus.queued && u.id != 2)).length + 1)))) ∧
    findTask (queue_task c5PendStore 2 10) 1 = findTask c5PendStore 1 :=
  ⟨(c5_queue_position_amended c5PendStore 2 10).1,
   (c5_queue_position_amended c5PendStore 2 10).2.1 1 (by decide)⟩

/-- The head of a list is a member. -/
theorem headMem {α : Type _} {l : List α} {a : α} (h : l.head? = some a) : a ∈ l := by
  cases l with
  | nil => simp at h
  | cons x xs =>
    simp only [List.head?_cons, Option.some.injEq] at h
    rw [h]
    exact List.mem_cons_self a xs

/-- `completedAtDesc` is total. -/
theorem completedAtDesc_total (a b : ATask) :
    completedAtDesc a b = true ∨ completedAtDesc b a = true := by
  unfold completedAtDesc
  rcases Nat.le_total (a.completedAt.getD 0) (b.completedAt.getD 0) with h | h
  · right; simpa using h
  · left; simpa using h

/-- `completedAtDesc` is transitive. -/
theorem completedAtDesc_trans (a b c : ATask)
    (h1 : completedAtDesc a b = true) (h2 : completedAtDesc b c = true) :
    completedAtDesc a c = true := by
  unfold completedAtDesc at *
  simp only [decide_eq_true_eq] at *
  omega

/-- `createdAtDesc` is total. -/
theorem createdAtDesc_total (a b : ATask) :
    createdAtDesc a b = true ∨ createdAtDesc b a = true := by
  unfold createdAtDesc
  rcases Nat.le_total a.createdAt b.createdAt with h | h
  · right; simpa using h
  · left; simpa using h

/-- `createdAtDesc` is transitive. -/
theorem createdAtDesc_trans (a b c : ATask)
    (h1 : createdAtDesc a b = true) (h2 : createdAtDesc b c = true) :
    createdAtDesc a c = true := by
  unfold createdAtDesc at *
  simp only [decide_eq_true_eq] at *
  omega

/-- C7 amended: cache-hit correctness up to tie-breaking.  A submission
whose identity already has a completed task with a report returns that
task's reference with no store write, and the returned task has a maximal
`completed_at` among all matches; `completed_at` ties, however, are broken
by store row order (the query orders by `-completed_at` only), not by
highest id. -/
theorem c7_cache_hit_amended (s : Store) (purl : String) (priority : Int)
    (newId now : Nat) (ct : ATask)
    (hc : find_completed_task_by_purl s purl = some ct) :
    analyze_api s purl priority newId now = (s, AnalyzeResponse.cachedResult ct.id) ∧
    ct ∈ s ∧ completedMatch purl ct = true ∧
    (∀ u ∈ s, completedMatch purl u = true →
      u.completedAt.getD 0 ≤ ct.completedAt.getD 0) := by
  have hmem : ct ∈ s.filter (fun t => completedMatch purl t) := by
    unfold find_completed_task_by_purl at hc
    exact (mem_sortOrd _ ct _).mp (headMem hc)
  refine ⟨?_, List.mem_of_mem_filter hmem, List.of_mem_filter hmem, ?_⟩
  · unfold analyze_api
    rw [hc]
  · intro u hu hum
    have hle := sortOrd_head_le completedAtDesc completedAtDesc_total
      completedAtDesc_trans (s.filter (fun t => completedMatch purl t)) ct hc u
      (List.mem_filter.mpr ⟨hu, hum⟩)
    simpa [completedAtDesc] using hle

/-- Store for the C7 amended witness: a single completed, reported task. -/
def c7WStore : Store :=
  [{ id := 4, purl := some "pkg:pypi/foo@1.0", status := TStatus.completed,
     completedAt := some 100, report := some 7 }]

/-- Witness for the amended C7 at `c7WStore`. -/
theorem c7_cache_hit_amended_witness :
    analyze_api c7WStore "pkg:pypi/foo@1.0" 0 9 200 =
      (c7WStore, AnalyzeResponse.cachedResult 4) ∧
    ({ id := 4, purl := some "pkg:pypi/foo@1.0", status := TStatus.completed,
       completedAt := some 100, report := some 7 } : ATask) ∈ c7WStore ∧
    completedMatch "pkg:pypi/foo@1.0"
      { id := 4, purl := some "pkg:pypi/foo@1.0", status := TStatus.completed,
        completedAt := some 100, report := some 7 } = true ∧
    (∀ u ∈ c7WStore, completedMatch "pkg:pypi/foo@1.0" u = true →
      u.completedAt.getD 0 ≤
        ({ id := 4, purl := some "pkg:pypi/foo@1.0", status := TStatus.completed,
           completedAt := some 100, report := some 7 } : ATask).completedAt.getD 0) :=
  c7_cache_hit_amended c7WStore "pkg:pypi/foo@1.0" 0 9 200
    { id := 4, purl := some "pkg:pypi/foo@1.0", status := TStatus.completed,
      completedAt := some 100, report := some 7 }
    (by decide)

/-- C6 amended: active-task deduplication over `{running, queued, pending}`
only.  When no completed match exists and some task with the same purl,
status in `{running, queued, pending}` and creation within the 24 h window
is present, the submission returns the most recently created such task and
writes nothing; a matching `submitted` task does not deduplicate (see the
counterexample). -/
theorem c6_active_dedup_amended (s : Store) (purl : String) (priority : Int)
    (newId now : Nat) (a : ATask)
    (hc : find_completed_task_by_purl s purl = none)
    (ha : (find_active_tasks_by_purl s purl now).head? = some a) :
    analyze_api s purl priority newId now =
      (s, AnalyzeResponse.attached a.id
        (if a.status == TStatus.queued then a.queuePosition else none)) ∧
    a ∈ s ∧ a.purl = some purl ∧
    (a.status = TStatus.running ∨ a.status = TStatus.queued ∨
      a.status = TStatus.pending) ∧
    now - ACTIVE_TASK_WINDOW_MINUTES ≤ a.createdAt ∧
    (∀ u ∈ s, u.purl = some purl →
      (u.status = TStatus.running ∨ u.status = TStatus.queued ∨
        u.status = TStatus.pending) →
      now - ACTIVE_TASK_WINDOW_MINUTES ≤ u.createdAt →
      u.createdAt ≤ a.createdAt) := by
  have hmem : a ∈ s.filter (fun t => t.purl == some purl &&
      (t.status == TStatus.running || t.status == TStatus.queued ||
        t.status == TStatus.pending) &&
      now - ACTIVE_TASK_WINDOW_MINUTES ≤ t.createdAt) := by
    unfold find_active_tasks_by_purl at ha
    exact (mem_sortOrd _ a _).mp (headMem ha)
  have hprops := List.of_mem_filter hmem
  simp only [Bool.and_eq_true, Bool.or_eq_true, beq_iff_eq, decide_eq_true_eq] at hprops
  refine ⟨?_, List.mem_of_mem_filter hmem, hprops.1.1, or_assoc.mp hprops.1.2,
    hprops.2, ?_⟩
  · unfold analyze_api
    rw [hc, ha]
  · intro u hu hup hust huw
    have hufilter : u ∈ s.filter (fun t => t.purl == some purl &&
        (t.status == TStatus.running || t.status == TStatus.queued ||
          t.status == TStatus.pending) &&
        now - ACTIVE_TASK_WINDOW_MINUTES ≤ t.createdAt) := by
      refine List.mem_filter.mpr ⟨hu, ?_⟩
      simp only [Bool.and_eq_true, Bool.or_eq_true, beq_iff_eq, decide_eq_true_eq]
      exact ⟨⟨hup, or_assoc.mpr hust⟩, huw⟩
    have hle := sortOrd_head_le createdAtDesc createdAtDesc_total
      createdAtDesc_trans _ a ha u hufilter
    simpa [createdAtDesc] using hle

/-- Store for the C6 amended witness: one running task for the identity. -/
def c6WStore : Store :=
  [{ id := 3, purl := some "pkg:pypi/foo@1.0", status := TStatus.running,
     createdAt := 100, startedAt := some 101 }]

/-- Witness for the amended C6 at `c6WStore`. -/
theorem c6_active_dedup_amended_witness :
    analyze_api c6WStore "pkg:pypi/foo@1.0" 0 9 110 =
      (c6WStore, AnalyzeResponse.attached 3 none) ∧
    (∀ u ∈ c6WStore, u.purl = some "pkg:pypi/foo@1.0" →
      (u.status = TStatus.running ∨ u.status = TStatus.queued ∨
        u.status = TStatus.pending) →
      110 - ACTIVE_TASK_WINDOW_MINUTES ≤ u.createdAt →
      u.createdAt ≤ 100) :=
  have h := c6_active_dedup_amended c6WStore "pkg:pypi/foo@1.0" 0 9 110
    { id := 3, purl := some "pkg:pypi/foo@1.0", status := TStatus.running,
      createdAt := 100, startedAt := some 101 }
    (by decide) (by decide)
  ⟨h.1, h.2.2.2.2.2⟩

/-- C4 amended: terminal immutability holds for `_process_next_queued_task`,
the timeout sweep and the completion callback — a task in `completed` or
`failed` survives each of them with its row (status, queue position,
timestamps and all) unchanged.  It does not hold for dispatch attempts:
`run_dynamic_analysis` on an already-completed task marks it failed (the
already-completed early return is a mis-sized tuple, see the
counterexample), and its retry path re-dispatches an already-failed task
back to `running`. -/
theorem c4_terminal_amended (s : Store) (i now now2 : Nat) (rf pok : Bool)
    (rid : Nat) (url : String) (t : ATask)
    (hnd : idsNodup s) (hf : findTask s i = some t)
    (hterm : t.status = TStatus.completed ∨ t.status = TStatus.failed) :
    findTask (process_next_queued_task s now) i = some t ∧
    findTask (check_timeouts s now) i = some t ∧
    (job_completed_api s i rf rid pok url now2).1 = s := by
  have hnq : t.status ≠ TStatus.queued := by
    rcases hterm with h | h <;> rw [h] <;> exact fun hc => TStatus.noConfusion hc
  refine ⟨findTask_processNextFuel _ now hnd hf hnq, ?_, ?_⟩
  · unfold check_timeouts
    split
    · exact hf
    · set g := fun u : ATask =>
        if u.status == TStatus.running && is_timed_out now u then
          handle_timed_out_task now u
        else u with hgdef
      have hgid : ∀ u, (g u).id = u.id := by
        intro u
        rw [hgdef]
        by_cases h : (u.status == TStatus.running && is_timed_out now u) = true
        · simp [h, handle_timed_out_task]
        · simp [h]
      have hmapped : findTask (s.map g) i = some t := by
        rw [findTask_map s g i hgid, hf]
        show some (g t) = some t
        rw [hgdef]
        rcases hterm with h | h <;> simp [h]
      apply findTask_processNextFuel
      · unfold idsNodup
        rw [map_id_map s g hgid]
        exact hnd
      · exact hmapped
      · exact hnq
  · have hcond : (t.status == TStatus.running || t.status == TStatus.submitted) = false := by
      rcases hterm with h | h <;> rw [h] <;> rfl
    unfold job_completed_api
    simp only [hf, hcond, Bool.not_false, if_true]

/-- Store for the C4 amended witness: one completed and one failed task. -/
def c4WStore : Store :=
  [{ id := 1, purl := some "pkg:pypi/a@1.0", status := TStatus.completed,
     completedAt := some 3, report := some 9 },
   { id := 2, purl := some "pkg:pypi/b@1.0", status := TStatus.failed,
     completedAt := some 4, errorCategory := some "timeout_error" }]

/-- Witness for the amended C4 at `c4WStore`. -/
theorem c4_terminal_amended_witness :
    (findTask (process_next_queued_task c4WStore 7) 1 =
      some { id := 1, purl := some "pkg:pypi/a@1.0", status := TStatus.completed,
             completedAt := some 3, report := some 9 }) ∧
    (findTask (check_timeouts c4WStore 7) 2 =
      some { id := 2, purl := some "pkg:pypi/b@1.0", status := TStatus.failed,
             completedAt := some 4, errorCategory := some "timeout_error" }) :=
  ⟨(c4_terminal_amended c4WStore 1 7 8 true true 5 "u"
      { id := 1, purl := some "pkg:pypi/a@1.0", status := TStatus.completed,
        completedAt := some 3, report := some 9 }
      (by unfold idsNodup; decide) (by decide) (Or.inl rfl)).1,
   (c4_terminal_amended c4WStore 2 7 8 true true 5 "u"
      { id := 2, purl := some "pkg:pypi/b@1.0", status := TStatus.failed,
        completedAt := some 4, errorCategory := some "timeout_error" }
      (by unfold idsNodup; decide) (by decide) (Or.inr rfl)).2.1⟩

/-- Row lookup of a different id is unaffected by `setTask`. -/
theorem findTask_setTask_ne (s : Store) (i j : Nat) (f : ATask → ATask)
    (hf : ∀ t, (f t).id = t.id) (hji : j ≠ i) :
    findTask (setTask s i f) j = findTask s j := by
  rw [findTask_setTask s i j f hf, if_neg hji]

/-- A row found in a store is still found after appending rows. -/
theorem findTask_append_left {s : Store} {j : Nat} {u : ATask} (l : Store)
    (h : findTask s j = some u) : findTask (s ++ l) j = some u := by
  unfold findTask at *
  rw [List.find?_append, h]
  rfl

/-- A per-row map that never creates a `p`-row does not increase the count. -/
theorem countP_map_le (s : Store) (g : ATask → ATask) (p : ATask → Bool)
    (hp : ∀ t, p (g t) = true → p t = true) :
    (s.map g).countP p ≤ s.countP p := by
  rw [List.countP_map]
  exact List.countP_mono_left (fun a _ h => hp a h)

/-- An update whose output is never `running` does not increase the running
count. -/
theorem runningCount_setTask_le_of (s : Store) (i : Nat) (f : ATask → ATask)
    (hf : ∀ t, (f t).status ≠ TStatus.running) :
    runningCount (setTask s i f) ≤ runningCount s := by
  unfold runningCount
  apply countP_setTask_le
  intro t h
  exact absurd (by simpa using h) (hf t)

/-- The exclusivity argument of `_check_and_prepare_task`: when the scan
found no other running task, setting this task running inside the same
transaction leaves at most one running row (ids being unique). -/
theorem runningCount_ready {s : Store} (i now : Nat) (hnd : idsNodup s)
    (hother : otherRunningExists s i = false) :
    runningCount (setTask s i (runSet now)) ≤ 1 := by
  have hnone : ∀ v ∈ s, v.status = TStatus.running → v.id = i := by
    rw [otherRunningExists, List.any_eq_false] at hother
    intro v hv hvr
    have hv2 := hother v hv
    by_contra hvi
    apply hv2
    rw [Bool.and_eq_true]
    exact ⟨by simp [hvr], by simpa using hvi⟩
  have h1 : runningCount (setTask s i (runSet now)) ≤
      s.countP (fun t => t.id == i) := by
    unfold runningCount setTask
    rw [List.countP_map]
    apply List.countP_mono_left
    intro a ha h
    by_cases hai : (a.id == i) = true
    · exact hai
    · exfalso
      have h' : ((if a.id == i then runSet now a else a).status == TStatus.running)
          = true := h
      rw [if_neg hai] at h'
      have har : a.status = TStatus.running := by simpa using h'
      exact hai (by simpa using hnone a ha har)
  exact Nat.le_trans h1 (countP_id_le_one hnd i)

/-- An id-preserving, never-running update followed by
`_process_next_queued_task` cannot promote any row to running. -/
theorem nonPromoting_setTask_processNext (s : Store) (i : Nat)
    (f : ATask → ATask) (now : Nat)
    {j : Nat} {u u' : ATask} (h1 : findTask s j = some u)
    (h2 : findTask (process_next_queued_task (setTask s i f) now) j = some u')
    (hr : u'.status = TStatus.running) (hfid : ∀ t, (f t).id = t.id)
    (hfs : ∀ t, (f t).status ≠ TStatus.running) : u.status = TStatus.running := by
  by_cases hji : j = i
  · subst hji
    have hmid : findTask (setTask s j f) j = some (f u) := by
      rw [findTask_setTask s j j f hfid, if_pos rfl, h1]
      rfl
    have := processNextFuel_nonPromoting _ now hmid h2 hr
    exact absurd this (hfs u)
  · have hmid : findTask (setTask s i f) j = some u := by
      rw [findTask_setTask_ne s i j f hfid hji]
      exact h1
    exact processNextFuel_nonPromoting _ now hmid h2 hr

/-- Shape of the store after one `run_dynamic_analysis` step: either
unchanged, or one of the update pipelines of its branches (failure
record, reuse completion, plain process-next, or — only after the
in-transaction scan found no other running task — the running transition
followed by one of the post-dispatch handlers). -/
theorem run_dynamic_analysis_store_cases (s : Store) (i retries maxRetries : Nat)
    (cached : Option Nat) (backend : BackendResult) (now : Nat) :
    (run_dynamic_analysis s i retries maxRetries cached backend now).1 = s ∨
    (∃ e, (run_dynamic_analysis s i retries maxRetries cached backend now).1 =
      process_next_queued_task (mark_task_failed s i e now) now) ∨
    (∃ ex, (run_dynamic_analysis s i retries maxRetries cached backend now).1 =
      process_next_queued_task (mark_task_completed_from_existing s i ex now) now) ∨
    ((run_dynamic_analysis s i retries maxRetries cached backend now).1 =
      process_next_queued_task s now) ∨
    (otherRunningExists s i = false ∧
      ((run_dynamic_analysis s i retries maxRetries cached backend now).1 =
          process_next_queued_task (setTask s i (runSet now)) now ∨
        (∃ p, (run_dynamic_analysis s i retries maxRetries cached backend now).1 =
          process_next_queued_task
            (handle_cached_result (setTask s i (runSet now)) i p now) now) ∨
        (∃ jid, (run_dynamic_analysis s i retries maxRetries cached backend now).1 =
          process_next_queued_task
            (handle_job_submission (setTask s i (runSet now)) i jid) now) ∨
        (∃ e, (run_dynamic_analysis s i retries maxRetries cached backend now).1 =
          process_next_queued_task
            (mark_task_failed (setTask s i (runSet now)) i e now) now))) := by
  cases hfind : findTask s i with
  | none =>
    have hcap : check_and_prepare_task s i now = (s, PrepareResult.missing) := by
      unfold check_and_prepare_task
      rw [hfind]
    right; right; right; left
    unfold run_dynamic_analysis
    rw [hcap]
    dsimp only
    split <;> rfl
  | some t =>
    by_cases hother : otherRunningExists s i = true
    · have hcap : check_and_prepare_task s i now = (s, PrepareResult.contention) := by
        unfold check_and_prepare_task
        rw [hfind]
        simp only [hother, if_true]
      by_cases hlt : retries < maxRetries
      · left
        unfold run_dynamic_analysis
        rw [hcap]
        dsimp only
        rw [if_pos hlt]
      · right; left
        refine ⟨{ message := "Another task is running" }, ?_⟩
        unfold run_dynamic_analysis
        rw [hcap]
        dsimp only
        rw [if_neg hlt]
    · have hofalse : otherRunningExists s i = false := by
        rwa [Bool.not_eq_true] at hother
      by_cases hcomp : (t.status == TStatus.completed) = true
      · have hcap : check_and_prepare_task s i now = (s, PrepareResult.alreadyCompleted) := by
          unfold check_and_prepare_task
          rw [hfind]
          simp only [hofalse, Bool.false_eq_true, if_false, hcomp, if_true]
        right; left
        refine ⟨{ message := "too many values to unpack" }, ?_⟩
        unfold run_dynamic_analysis
        rw [hcap]
        dsimp only
        split <;> rfl
      · cases hex : reuse_existing_result s t (some i) with
        | some ex =>
          have hcap : check_and_prepare_task s i now =
              (mark_task_completed_from_existing s i ex now, PrepareResult.reused) := by
            unfold check_and_prepare_task
            rw [hfind]
            simp only [hofalse, Bool.false_eq_true, if_false, hcomp, hex]
          right; right; left
          refine ⟨ex, ?_⟩
          unfold run_dynamic_analysis
          rw [hcap]
        | none =>
          have hcap : check_and_prepare_task s i now =
              (setTask s i (runSet now), PrepareResult.ready) := by
            unfold check_and_prepare_task
            rw [hfind]
            simp only [hofalse, Bool.false_eq_true, if_false, hcomp, hex]
          right; right; right; right
          refine ⟨hofalse, ?_⟩
          cases cached with
          | some p =>
            right; left
            refine ⟨p, ?_⟩
            unfold run_dynamic_analysis
            rw [hcap]
          | none =>
            cases backend with
            | jobSubmitted jid =>
              right; right; left
              refine ⟨jid, ?_⟩
              unfold run_dynamic_analysis
              rw [hcap]
            | payload d =>
              left
              unfold run_dynamic_analysis
              rw [hcap]
            | errorRaised e =>
              right; right; right
              refine ⟨e, ?_⟩
              unfold run_dynamic_analysis
              rw [hcap]
              dsimp only
              split <;> rfl

/-- When the in-transaction scan found no other running task, every running
row already carries the dispatched task's id. -/
theorem otherRunning_false_unique {s : Store} {i : Nat}
    (h : otherRunningExists s i = false) :
    ∀ v ∈ s, v.status = TStatus.running → v.id = i := by
  rw [otherRunningExists, List.any_eq_false] at h
  intro v hv hvr
  have hv2 := h v hv
  by_contra hvi
  apply hv2
  rw [Bool.and_eq_true]
  exact ⟨by simp [hvr], by simpa using hvi⟩

/-- A single id-preserving update whose output is never running cannot
promote any row to running. -/
theorem nonPromoting_setTask (s : Store) (i : Nat) (f : ATask → ATask)
    {j : Nat} {u u' : ATask} (h1 : findTask s j = some u)
    (h2 : findTask (setTask s i f) j = some u')
    (hr : u'.status = TStatus.running) (hfid : ∀ t, (f t).id = t.id)
    (hfs : ∀ t, (f t).status ≠ TStatus.running) : u.status = TStatus.running := by
  by_cases hji : j = i
  · subst hji
    rw [findTask_setTask s j j f hfid, if_pos rfl, h1] at h2
    simp only [Option.map_some'] at h2
    cases h2
    exact absurd hr (hfs u)
  · rw [findTask_setTask_ne s i j f hfid hji, h1] at h2
    cases h2
    exact hr

/-- Shape of the store after `job_completed_api`: unchanged, or one
update of the target row whose written status is terminal. -/
theorem job_completed_store_cases (s : Store) (i : Nat) (rf : Bool) (rid : Nat)
    (pok : Bool) (url : String) (now : Nat) :
    (job_completed_api s i rf rid pok url now).1 = s ∨
    (∃ f, (job_completed_api s i rf rid pok url now).1 = setTask s i f ∧
      (∀ t, (f t).id = t.id) ∧ (∀ t, (f t).status ≠ TStatus.running)) := by
  unfold job_completed_api
  cases hfind : findTask s i with
  | none => left; rfl
  | some t =>
    dsimp only
    by_cases hguard : (!(t.status == TStatus.running || t.status == TStatus.submitted)) = true
    · rw [if_pos hguard]
      left; rfl
    · rw [if_neg hguard]
      by_cases hrf : (!rf) = true
      · rw [if_pos hrf]
        right
        refine ⟨_, rfl, fun u => rfl, fun u hc => TStatus.noConfusion hc⟩
      · rw [if_neg hrf]
        right
        refine ⟨_, rfl, fun u => rfl, fun u hc => TStatus.noConfusion hc⟩

/-- Shape of the store after `analyze_api`: unchanged, or a freshly created
pending row appended and then queued. -/
theorem analyze_store_cases (s : Store) (purl : String) (priority : Int)
    (newId now : Nat) :
    (analyze_api s purl priority newId now).1 = s ∨
    (∃ nt : ATask, nt.status = TStatus.pending ∧
      (analyze_api s purl priority newId now).1 = queue_task (s ++ [nt]) newId now) := by
  unfold analyze_api
  cases hm : find_completed_task_by_purl s purl with
  | some ct => left; rfl
  | none =>
    dsimp only
    cases ha : (find_active_tasks_by_purl s purl now).head? with
    | some a => left; rfl
    | none =>
      dsimp only
      cases hr : ((find_active_tasks_by_purl s purl now).filter (fun t =>
          now - RACE_CONDITION_CHECK_MINUTES ≤ t.createdAt)).head? with
      | some lt => left; rfl
      | none =>
        right
        exact ⟨_, rfl, rfl⟩

/-- C1: global exclusivity.  For every scheduler operation on a store with
unique primary keys: (i) if at most one task is running before the step, at
most one is running after it; (ii) any row promoted to `running` by the
step was promoted against a state in which every running row already was
the dispatched task itself — i.e. the only write of `running` is the one in
`_check_and_prepare_task`, made inside the same transaction as its scan for
any other running task.  (Reachability note: the reconciler helpers
`_handle_succeeded_job` / `_handle_running_job`, which would write
`running` without such a scan, have no caller in the source —
`reconcile_k8s_jobs` is empty — and are therefore not operations.) -/
theorem c1_global_exclusivity (op : Op) (s : Store) (hnd : idsNodup s) :
    (runningCount s ≤ 1 → runningCount (applyOp op s) ≤ 1) ∧
    (∀ j u u', findTask s j = some u → findTask (applyOp op s) j = some u' →
      u'.status = TStatus.running →
      u.status = TStatus.running ∨ ∀ v ∈ s, v.status = TStatus.running → v.id = j) := by
  cases op with
  | dispatchOp i retries maxRetries cached backend now =>
    dsimp only [applyOp]
    rcases run_dynamic_analysis_store_cases s i retries maxRetries cached backend now with
      hcase | ⟨e, hcase⟩ | ⟨ex, hcase⟩ | hcase | ⟨hother, hsub⟩
    · rw [hcase]
      refine ⟨fun h => h, fun j u u' h1 h2 hr => ?_⟩
      rw [h1] at h2
      cases h2
      exact Or.inl hr
    · rw [hcase]
      constructor
      · intro hle
        exact Nat.le_trans (Nat.le_trans (runningCount_processNextFuel _ _ _)
          (runningCount_mark_failed_le _ _ _ _)) hle
      · intro j u u' h1 h2 hr
        exact Or.inl (nonPromoting_setTask_processNext s i _ now h1 h2 hr
          (fun t => rfl) (fun t hc => by simp at hc))
    · rw [hcase]
      constructor
      · intro hle
        exact Nat.le_trans (Nat.le_trans (runningCount_processNextFuel _ _ _)
          (runningCount_mark_completed_le _ _ _ _)) hle
      · intro j u u' h1 h2 hr
        exact Or.inl (nonPromoting_setTask_processNext s i _ now h1 h2 hr
          (fun t => rfl) (fun t hc => by simp at hc))
    · rw [hcase]
      constructor
      · intro hle
        exact Nat.le_trans (runningCount_processNextFuel _ _ _) hle
      · intro j u u' h1 h2 hr
        exact Or.inl (processNextFuel_nonPromoting _ now h1 h2 hr)
    · have hready : runningCount (setTask s i (runSet now)) ≤ 1 :=
        runningCount_ready i now hnd hother
      rcases hsub with hcase | ⟨p, hcase⟩ | ⟨jid, hcase⟩ | ⟨e, hcase⟩
      · rw [hcase]
        constructor
        · intro _
          exact Nat.le_trans (runningCount_processNextFuel _ _ _) hready
        · intro j u u' h1 h2 hr
          by_cases hji : j = i
          · subst hji
            exact Or.inr (fun v hv hvr => otherRunning_false_unique hother v hv hvr)
          · have h1' : findTask (setTask s i (runSet now)) j = some u := by
              rw [findTask_setTask_ne s i j (runSet now) (fun t => rfl) hji]
              exact h1
            exact Or.inl (processNextFuel_nonPromoting _ now h1' h2 hr)
      · rw [hcase]
        constructor
        · intro _
          exact Nat.le_trans (runningCount_processNextFuel _ _ _)
            (Nat.le_trans (runningCount_setTask_le_of _ _ _
              (fun t hc => TStatus.noConfusion hc)) hready)
        · intro j u u' h1 h2 hr
          by_cases hji : j = i
          · subst hji
            exact Or.inr (fun v hv hvr => otherRunning_false_unique hother v hv hvr)
          · have h1' : findTask (setTask s i (runSet now)) j = some u := by
              rw [findTask_setTask_ne s i j (runSet now) (fun t => rfl) hji]
              exact h1
            exact Or.inl (nonPromoting_setTask_processNext _ i _ now h1' h2 hr
              (fun t => rfl) (fun t hc => by simp at hc))
      · rw [hcase]
        constructor
        · intro _
          exact Nat.le_trans (runningCount_processNextFuel _ _ _)
            (Nat.le_trans (runningCount_setTask_le_of _ _ _
              (fun t hc => TStatus.noConfusion hc)) hready)
        · intro j u u' h1 h2 hr
          by_cases hji : j = i
          · subst hji
            exact Or.inr (fun v hv hvr => otherRunning_false_unique hother v hv hvr)
          · have h1' : findTask (setTask s i (runSet now)) j = some u := by
              rw [findTask_setTask_ne s i j (runSet now) (fun t => rfl) hji]
              exact h1
            exact Or.inl (nonPromoting_setTask_processNext _ i _ now h1' h2 hr
              (fun t => rfl) (fun t hc => by simp at hc))
      · rw [hcase]
        constructor
        · intro _
          exact Nat.le_trans (runningCount_processNextFuel _ _ _)
            (Nat.le_trans (runningCount_setTask_le_of _ _ _
              (fun t hc => TStatus.noConfusion hc)) hready)
        · intro j u u' h1 h2 hr
          by_cases hji : j = i
          · subst hji
            exact Or.inr (fun v hv hvr => otherRunning_false_unique hother v hv hvr)
          · have h1' : findTask (setTask s i (runSet now)) j = some u := by
              rw [findTask_setTask_ne s i j (runSet now) (fun t => rfl) hji]
              exact h1
            exact Or.inl (nonPromoting_setTask_processNext _ i _ now h1' h2 hr
              (fun t => rfl) (fun t hc => by simp at hc))
  | processNextOp now =>
    dsimp only [applyOp]
    refine ⟨fun h => Nat.le_trans (runningCount_processNextFuel _ _ _) h,
      fun j u u' h1 h2 hr => Or.inl (processNextFuel_nonPromoting _ now h1 h2 hr)⟩
  | timeoutSweepOp now =>
    dsimp only [applyOp]
    set g := fun u : ATask =>
      if u.status == TStatus.running && is_timed_out now u then
        handle_timed_out_task now u
      else u with hgdef
    have hgid : ∀ u, (g u).id = u.id := by
      intro u
      rw [hgdef]
      by_cases h : (u.status == TStatus.running && is_timed_out now u) = true
      · simp [h, handle_timed_out_task]
      · simp [h]
    have hg : ∀ u : ATask, (g u).status = TStatus.running →
        u.status = TStatus.running := by
      intro u hc
      by_cases h : (u.status == TStatus.running && is_timed_out now u) = true
      · rw [Bool.and_eq_true] at h
        simpa using h.1
      · have hgu : g u = u := by
          rw [hgdef]
          simp [h]
        rw [hgu] at hc
        exact hc
    constructor
    · intro hle
      unfold check_timeouts
      split
      · exact hle
      · refine Nat.le_trans (Nat.le_trans (runningCount_processNextFuel _ _ _) ?_) hle
        exact countP_map_le s g _ (fun t h => by simpa using hg t (by simpa using h))
    · intro j u u' h1 h2 hr
      left
      unfold check_timeouts at h2
      split at h2
      · rw [h1] at h2
        cases h2
        exact hr
      · have hmid : findTask (s.map g) j = some (g u) := by
          rw [findTask_map s g j hgid, h1]
          rfl
        exact hg u (processNextFuel_nonPromoting _ now hmid h2 hr)
  | callbackOp i rf rid pok url now =>
    dsimp only [applyOp]
    rcases job_completed_store_cases s i rf rid pok url now with hcase | ⟨f, hcase, hfid, hfs⟩
    · rw [hcase]
      refine ⟨fun h => h, fun j u u' h1 h2 hr => ?_⟩
      rw [h1] at h2
      cases h2
      exact Or.inl hr
    · rw [hcase]
      refine ⟨fun h => Nat.le_trans (runningCount_setTask_le_of s i f hfs) h,
        fun j u u' h1 h2 hr => Or.inl (nonPromoting_setTask s i f h1 h2 hr hfid hfs)⟩
  | analyzeOp purl priority newId now =>
    dsimp only [applyOp]
    rcases analyze_store_cases s purl priority newId now with hcase | ⟨nt, hpend, hcase⟩
    · rw [hcase]
      refine ⟨fun h => h, fun j u u' h1 h2 hr => ?_⟩
      rw [h1] at h2
      cases h2
      exact Or.inl hr
    · rw [hcase]
      have happ : runningCount (s ++ [nt]) = runningCount s := by
        unfold runningCount
        rw [List.countP_append]
        simp [hpend]
      constructor
      · intro hle
        refine Nat.le_trans (Nat.le_trans (runningCount_setTask_le_of _ _ _
          (fun t hc => TStatus.noConfusion hc)) (Nat.le_of_eq happ)) hle
      · intro j u u' h1 h2 hr
        exact Or.inl (nonPromoting_setTask (s ++ [nt]) newId _
          (findTask_append_left _ h1) h2 hr (fun t => rfl) (fun t hc => by simp at hc))
  | cleanupOp cutoff =>
    dsimp only [applyOp]
    constructor
    · intro hle
      exact Nat.le_trans (List.Sublist.countP_le _ (List.filter_sublist s)) hle
    · intro j u u' h1 h2 hr
      left
      obtain ⟨hmem, hid⟩ := findTask_mem h2
      have hmem' : u' ∈ s := List.mem_of_mem_filter hmem
      have : u' = u := findTask_eq_of_mem hnd h1 hmem' hid
      rw [← this]
      exact hr
  | reconcileOp =>
    dsimp only [applyOp]
    refine ⟨fun h => h, fun j u u' h1 h2 hr => ?_⟩
    rw [reconcile_k8s_jobs, h1] at h2
    cases h2
    exact Or.inl hr

/-- Store for the C1 witness: a single queued task about to be dispatched. -/
def c1Store : Store :=
  [{ id := 2, purl := some "pkg:pypi/b@1.0", status := TStatus.queued,
     queuedAt := some 0, queuePosition := some 1 }]

/-- Witness for C1 at `c1Store`: dispatching the queued task keeps the
running count at one, and the promoted row was promoted from a state with
no other running task. -/
theorem c1_global_exclusivity_witness :
    runningCount (applyOp (Op.dispatchOp 2 0 1 none (BackendResult.payload 0) 9) c1Store) ≤ 1 ∧
    (({ id := 2, purl := some "pkg:pypi/b@1.0", status := TStatus.queued,
        queuedAt := some 0, queuePosition := some 1 } : ATask).status = TStatus.running ∨
      ∀ v ∈ c1Store, v.status = TStatus.running → v.id = 2) :=
  ⟨(c1_global_exclusivity (Op.dispatchOp 2 0 1 none (BackendResult.payload 0) 9) c1Store
      (by unfold idsNodup; decide)).1 (by decide),
   (c1_global_exclusivity (Op.dispatchOp 2 0 1 none (BackendResult.payload 0) 9) c1Store
      (by unfold idsNodup; decide)).2 2
      { id := 2, purl := some "pkg:pypi/b@1.0", status := TStatus.queued,
        queuedAt := some 0, queuePosition := some 1 }
      { id := 2, purl := some "pkg:pypi/b@1.0", status := TStatus.running,
        queuedAt := some 0, queuePosition := none, startedAt := some 9,
        lastHeartbeat := some 9 }
      (by decide) (by decide) (by decide)⟩
